import Mathlib

/-
Verification of the certutil bundle engine (helper/certutil/types.go).

The Go code is shallowly embedded: DER byte strings are modelled by what they
encode (an inductive `Bytes`), PEM texts by what `pem.Decode` recovers from
them (an inductive `PemStr` covering canonical PEM blocks with surrounding
whitespace), and Go's `*big.Int` serial-number pointers by a pair of an
allocation identifier and an integer value, so that Go pointer comparison
(`!=` on `*big.Int`) is visible as comparison of allocation identifiers.
Functions that can dereference nil or index out of range return `Res.panic`
in those situations; functions returning `(T, error)` return `Except`/`Res`.
Methods that mutate their receiver (`ToParsedCertBundle`, `ToParsedCSRBundle`
write back onto the string bundle) return the updated receiver alongside
their result.
-/

set_option maxHeartbeats 1000000
set_option maxRecDepth 10000

namespace Certutil

/-- Byte sequences (contents of a Go `[]byte`). -/
abbrev ByteSeq := List Nat

/-- Public keys. A key pair is identified by a natural-number scalar `d`;
the public half of the pair with scalar `d` is `rsa d` / `ec d`.
`other` stands for key types outside RSA/EC (e.g. ed25519). -/
inductive PubKey where
  | rsa (d : Nat)
  | ec (d : Nat)
  | other (tag : Nat)
  deriving DecidableEq, Repr

/-- A `crypto.Signer` value: an RSA or ECDSA private key, identified by the
scalar of its key pair. -/
inductive Signer where
  | rsa (d : Nat)
  | ec (d : Nat)
  deriving DecidableEq, Repr

/-- `Signer.Public()`. -/
def Signer.Public : Signer → PubKey
  | .rsa d => .rsa d
  | .ec d => .ec d

/-- The key wrapped inside a PKCS#8 envelope: an RSA key, an EC key, or a
key of some unsupported algorithm. -/
inductive Pkcs8Alg where
  | rsa (d : Nat)
  | ec (d : Nat)
  | other (tag : Nat)
  deriving DecidableEq, Repr

/-- The decoded fields of an X.509 certificate that the engine inspects,
as they are determined by the certificate's DER bytes. -/
structure CertData where
  serialVal : Int
  isCA : Bool
  authorityKeyId : ByteSeq
  subjectKeyId : ByteSeq
  commonName : String
  publicKey : PubKey
  deriving DecidableEq, Repr

/-- The decoded fields of an X.509 certificate request. -/
structure CSRData where
  commonName : String
  publicKey : PubKey
  deriving DecidableEq, Repr

/-- DER byte strings, modelled by what they encode.  `raw` stands for bytes
that decode as none of the recognized structures (including the empty
slice `raw []`); the structured constructors stand for (non-empty)
well-formed DER encodings. -/
inductive Bytes where
  | raw (data : ByteSeq)
  | certDer (c : CertData)
  | csrDer (c : CSRData)
  | ecKeyDer (d : Nat)
  | pkcs1Der (d : Nat)
  | pkcs8Der (alg : Pkcs8Alg)
  deriving DecidableEq, Repr

/-- `len(b) == 0` on the modelled byte string. Only `raw []` denotes the
empty slice; every structured encoding is non-empty. -/
def Bytes.isEmptyBytes : Bytes → Bool
  | .raw [] => true
  | _ => false

/-- `x509.ParseECPrivateKey`. -/
def parseECPrivateKey : Bytes → Option Signer
  | .ecKeyDer d => some (.ec d)
  | _ => none

/-- `x509.ParsePKCS1PrivateKey`. -/
def parsePKCS1PrivateKey : Bytes → Option Signer
  | .pkcs1Der d => some (.rsa d)
  | _ => none

/-- `x509.ParsePKCS8PrivateKey`: returns the wrapped key (of whatever
algorithm) or fails. -/
def parsePKCS8PrivateKey : Bytes → Option Pkcs8Alg
  | .pkcs8Der alg => some alg
  | _ => none

/-- `x509.ParseCertificateRequest`. -/
def parseCertificateRequest : Bytes → Option CSRData
  | .csrDer c => some c
  | _ => none

/-- A decoded `*x509.Certificate`.  `serialPtr` is the identity of the
`*big.Int` allocated for the certificate's serial number: two certificates
parsed by separate `x509.ParseCertificate` calls carry distinct `serialPtr`s
even when their serial values are equal.  Go's `!=` on the `SerialNumber`
fields compares these identities, not the values. -/
structure Cert where
  data : CertData
  serialPtr : Nat
  deriving DecidableEq, Repr

/-- A `*big.Int` reference: allocation identity paired with the value. -/
structure SerialRef where
  ptr : Nat
  val : Int
  deriving DecidableEq, Repr

/-- The serial-number reference held by a certificate. -/
def Cert.SerialNumber (c : Cert) : SerialRef := ⟨c.serialPtr, c.data.serialVal⟩

/-- `x509.ParseCertificate`, threaded through an allocation counter: a fresh
`serialPtr` is drawn for the parsed certificate's serial number. -/
def parseCertificate : Bytes → Nat → Option (Cert × Nat)
  | .certDer d, n => some (⟨d, n⟩, n + 1)
  | _, _ => none

/-- A PEM text, modelled by what `pem.Decode` recovers from it.
`empty` is the empty string, `garbage` a non-empty text containing no
decodable PEM block, and `block lead label bytes trail` a canonical PEM
block with label `label` and payload `bytes`, surrounded by the (whitespace)
padding `lead`/`trail`. -/
inductive PemStr where
  | empty
  | garbage
  | block (lead : String) (label : String) (bytes : Bytes) (trail : String)
  deriving DecidableEq, Repr

/-- `len(s) > 0` for the modelled text. -/
def PemStr.isNonempty : PemStr → Bool
  | .empty => false
  | _ => true

/-- `pem.Decode`: recovers the block's label and payload, ignoring the
surrounding padding; fails on empty or garbage text. -/
def pemDecode : PemStr → Option (String × Bytes)
  | .block _ label bytes _ => some (label, bytes)
  | _ => none

/-- `strings.TrimSpace(string(pem.EncodeToMemory(&block)))`: the canonical
PEM rendering of the block, with no surrounding padding. -/
def pemEncodeTrimmed (label : String) (bytes : Bytes) : PemStr :=
  .block "" label bytes ""

/-- Strip the surrounding padding of a PEM text (the effect of trimming
leading/trailing whitespace on the modelled texts). -/
def PemStr.strip : PemStr → PemStr
  | .block _ label bytes _ => .block "" label bytes ""
  | s => s

/-- Equality of PEM texts up to leading/trailing whitespace. -/
def pemTrimEq (a b : PemStr) : Bool := a.strip == b.strip

/-- Errors raised by the engine, one constructor per distinct `errutil` /
`fmt.Errorf` return site of types.go, carrying the interpolated data. -/
inductive Err where
  | decodePrivateKey
  | pkcs8TypeError (inner : Err)
  | unsupportedBlockType (label : String)
  | gettingSigner (inner : Err)
  | decodeCertificate
  | parseCertificateBytes
  | decodeCACertificate
  | parseCertificateBytes3
  | noPrivateKeyInfo
  | parseECKey
  | parseRSAKey
  | pkcs8UnknownType
  | pkcs8ParseFailed
  | undeterminedKeyType
  | comparePublicKeysErr (msg : String)
  | publicKeyMismatch
  | notCAErr (position : Nat)
  | trustPathErr (position : Nat) (childCN : String) (parentCN : String)
  | unknownKeyTypeInBundle (typ : String)
  | csrInternalKeyType
  | tlsConvert (inner : Err)
  | appendCACert
  deriving DecidableEq, Repr

/-- The observable outcome of a Go call: a value, an error, or a runtime
panic (nil dereference / index out of range). -/
inductive Res (α : Type) where
  | ok (a : α)
  | err (e : Err)
  | panic
  deriving DecidableEq, Repr

/-- Modelled from the spec: `ComparePublicKeys` lives in a certutil helper
file that is not under src/.  Per the spec (section 4.4) it reports whether
the two public keys are cryptographically equal (same algorithm, same key
material), and fails on key types the engine does not support. -/
def ComparePublicKeys : PubKey → PubKey → Except String Bool
  | .rsa a, .rsa b => .ok (a == b)
  | .ec a, .ec b => .ok (a == b)
  | .other _, _ => .error "unsupported public key type"
  | _, .other _ => .error "unsupported public key type"
  | _, _ => .ok false

/-- `strings.TrimSpace`: drop leading and trailing whitespace. -/
def trimSpace (s : String) : String :=
  ⟨((s.data.dropWhile Char.isWhitespace).reverse.dropWhile Char.isWhitespace).reverse⟩

/-- One lowercase hexadecimal digit. -/
def hexChar (n : Nat) : Char := "0123456789abcdef".toList.getD n '0'

/-- A byte rendered as two lowercase hexadecimal digits. -/
def byteHex (b : Nat) : String := String.mk [hexChar (b / 16 % 16), hexChar (b % 16)]

/-- Modelled from the spec: `GetHexFormatted` lives in a certutil helper file
that is not under src/.  Per the spec (section 6) it joins the lowercase
two-digit hex renderings of the bytes with the separator. -/
def GetHexFormatted (buf : ByteSeq) (sep : String) : String :=
  String.intercalate sep (buf.map byteHex)

/-- `(*big.Int).Bytes()`: the minimal big-endian byte representation of the
absolute value, empty for zero. -/
def natToBytes (n : Nat) : ByteSeq :=
  if h : n = 0 then []
  else
    have : n / 256 < n := Nat.div_lt_self (Nat.pos_of_ne_zero h) (by decide)
    natToBytes (n / 256) ++ [n % 256]

/-- The colon-hex rendering of a serial number, as computed by
`GetHexFormatted(serial.Bytes(), ":")`. -/
def serialHex (v : Int) : String := GetHexFormatted (natToBytes v.natAbs) ":"

/-- `CertBundle`: the string-encoded (PEM) bundle.  `privateKeyType` holds
the `PrivateKeyType` string tag (one of `""`, `"rsa"`, `"ec"` when
well-formed). -/
structure CertBundle where
  privateKeyType : String
  certificate : PemStr
  issuingCA : PemStr
  caChain : List PemStr
  privateKey : PemStr
  serialNumber : String
  deriving DecidableEq, Repr

/-- `CertBlock`: a CA-chain entry pairing DER bytes with the decoded
certificate.  Chain entries produced by the engine always carry a non-nil
decoded certificate, which is what the `certificate` field models. -/
structure CertBlock where
  certificate : Cert
  bytes : Bytes
  deriving DecidableEq, Repr

/-- `ParsedCertBundle`: the working (DER + decoded) bundle.  Go `nil`
fields are `none`; `privateKeyType` and `privateKeyFormat` hold the string
values of the Go `PrivateKeyType` / `BlockType` fields. -/
structure ParsedCertBundle where
  privateKeyType : String
  privateKeyFormat : String
  privateKeyBytes : Option Bytes
  privateKey : Option Signer
  certificateBytes : Option Bytes
  certificate : Option Cert
  caChain : List CertBlock
  serialNumber : Option SerialRef
  deriving DecidableEq, Repr

/-- The zero value `&ParsedCertBundle{}`. -/
def ParsedCertBundle.empty : ParsedCertBundle :=
  ⟨"", "", none, none, none, none, [], none⟩

/-- `CSRBundle`: the string-encoded CSR bundle. -/
structure CSRBundle where
  privateKeyType : String
  csr : PemStr
  privateKey : PemStr
  deriving DecidableEq, Repr

/-- `ParsedCSRBundle`: the working CSR bundle. -/
structure ParsedCSRBundle where
  privateKeyType : String
  privateKeyBytes : Option Bytes
  privateKey : Option Signer
  csrBytes : Option Bytes
  csr : Option CSRData
  deriving DecidableEq, Repr

/-- The zero value `&ParsedCSRBundle{}`. -/
def ParsedCSRBundle.empty : ParsedCSRBundle := ⟨"", none, none, none, none⟩

/-- `getPKCS8Type`: structurally decode a PKCS#8 payload and classify the
wrapped algorithm, returning the `PrivateKeyType` string. -/
def getPKCS8Type (bs : Bytes) : Except Err String :=
  match parsePKCS8PrivateKey bs with
  | none => .error .pkcs8ParseFailed
  | some (.ec _) => .ok "ec"
  | some (.rsa _) => .ok "rsa"
  | some (.other _) => .error .pkcs8UnknownType

/-- `(*ParsedCertBundle).getSigner`: materialize a `crypto.Signer` from the
stored key bytes, switching on the stored block format. -/
def ParsedCertBundle.getSigner (p : ParsedCertBundle) : Except Err Signer :=
  match p.privateKeyBytes with
  | none => .error .noPrivateKeyInfo
  | some bs =>
    if bs.isEmptyBytes then .error .noPrivateKeyInfo
    else
      match p.privateKeyFormat with
      | "EC PRIVATE KEY" =>
        match parseECPrivateKey bs with
        | some k => .ok k
        | none => .error .parseECKey
      | "RSA PRIVATE KEY" =>
        match parsePKCS1PrivateKey bs with
        | some k => .ok k
        | none => .error .parseRSAKey
      | "PRIVATE KEY" =>
        match parsePKCS8PrivateKey bs with
        | some (.rsa d) => .ok (.rsa d)
        | some (.ec d) => .ok (.ec d)
        | some (.other _) => .error .pkcs8UnknownType
        | none => .error .pkcs8ParseFailed
      | _ => .error .undeterminedKeyType

/-- The private-key phase of `ToParsedCertBundle` (types.go lines 145-179):
decode the key PEM, classify the block label, mirror the inferred type back
onto the string bundle, and materialize the signer.  Returns the updated
accumulator and the (possibly mutated) string bundle; the bundle component
is returned even when the phase fails, since the receiver may already have
been written to. -/
def certKeyPhase (c : CertBundle) (result : ParsedCertBundle) :
    Except Err ParsedCertBundle × CertBundle :=
  if c.privateKey.isNonempty then
    match pemDecode c.privateKey with
    | none => (.error .decodePrivateKey, c)
    | some (label, bytes) =>
      let result := { result with
        privateKeyBytes := some bytes
        privateKeyFormat := trimSpace label }
      match trimSpace label with
      | "EC PRIVATE KEY" =>
        let result := { result with privateKeyType := "ec" }
        let c := { c with privateKeyType := "ec" }
        match result.getSigner with
        | .error e => (.error (.gettingSigner e), c)
        | .ok k => (.ok { result with privateKey := some k }, c)
      | "RSA PRIVATE KEY" =>
        let result := { result with privateKeyType := "rsa" }
        let c := { c with privateKeyType := "rsa" }
        match result.getSigner with
        | .error e => (.error (.gettingSigner e), c)
        | .ok k => (.ok { result with privateKey := some k }, c)
      | "PRIVATE KEY" =>
        match getPKCS8Type bytes with
        | .error e => (.error (.pkcs8TypeError e), c)
        | .ok t =>
          let result := { result with privateKeyType := t }
          let c := if t == "ec" then { c with privateKeyType := "ec" }
                   else if t == "rsa" then { c with privateKeyType := "rsa" }
                   else c
          match result.getSigner with
          | .error e => (.error (.gettingSigner e), c)
          | .ok k => (.ok { result with privateKey := some k }, c)
      | _ => (.error (.unsupportedBlockType label), c)
  else (.ok result, c)

/-- The leaf-certificate phase of `ToParsedCertBundle` (lines 181-191):
decode and parse the certificate if present.  `n` is the allocation counter
for serial-number pointers. -/
def certCertPhase (c : CertBundle) (result : ParsedCertBundle) (n : Nat) :
    Except Err (ParsedCertBundle × Nat) :=
  if c.certificate.isNonempty then
    match pemDecode c.certificate with
    | none => .error .decodeCertificate
    | some (_, bytes) =>
      let result := { result with certificateBytes := some bytes }
      match parseCertificate bytes n with
      | none => .error .parseCertificateBytes
      | some (cert, n') => .ok ({ result with certificate := some cert }, n')
  else .ok (result, n)

/-- The loop over `c.CAChain` (lines 194-210): decode and parse each entry,
collecting `CertBlock`s, threading the allocation counter. -/
def parseChainLoop : List PemStr → Nat → Except Err (List CertBlock × Nat)
  | [], n => .ok ([], n)
  | s :: rest, n =>
    match pemDecode s with
    | none => .error .decodeCertificate
    | some (_, bytes) =>
      match parseCertificate bytes n with
      | none => .error .parseCertificateBytes
      | some (cert, n') =>
        match parseChainLoop rest n' with
        | .error e => .error e
        | .ok (blocks, n'') => .ok (⟨cert, bytes⟩ :: blocks, n'')

/-- The chain phase of `ToParsedCertBundle` (lines 192-231): populate the
chain from `CAChain` when non-empty, otherwise fall back to the legacy
`IssuingCA` field.  In the legacy branch the code reads
`result.Certificate.SerialNumber`, which dereferences a nil pointer (a
panic) when no leaf certificate was parsed. -/
def certChainPhase (c : CertBundle) (result : ParsedCertBundle) (n : Nat) :
    Res ParsedCertBundle :=
  if c.caChain.length > 0 then
    match parseChainLoop c.caChain n with
    | .error e => .err e
    | .ok (blocks, _) => .ok { result with caChain := blocks }
  else if c.issuingCA.isNonempty then
    match pemDecode c.issuingCA with
    | none => .err .decodeCACertificate
    | some (_, bytes) =>
      match parseCertificate bytes n with
      | none => .err .parseCertificateBytes3
      | some (cert, _) =>
        match result.certificate with
        | none => .panic
        | some leaf =>
          .ok { result with
            serialNumber := some leaf.SerialNumber
            caChain := [⟨cert, bytes⟩] }
  else .ok result

/-- The serial-number backfill of `ToParsedCertBundle` (lines 234-236):
write the colon-hex serial onto the string bundle when its field was empty
and a certificate was present. -/
def certSerialPhase (c : CertBundle) (result : ParsedCertBundle) : Res CertBundle :=
  if c.serialNumber = "" ∧ c.certificate.isNonempty then
    match result.certificate with
    | some cert => .ok { c with serialNumber := serialHex cert.data.serialVal }
    | none => .panic
  else .ok c

/-- `(*CertBundle).ToParsedCertBundle`: convert the string bundle to a
parsed bundle.  The second component is the receiver after the call (the Go
method mutates it); it is meaningful in the `ok` and `err` outcomes. -/
def CertBundle.ToParsedCertBundle (c : CertBundle) :
    Res ParsedCertBundle × CertBundle :=
  match certKeyPhase c ParsedCertBundle.empty with
  | (.error e, c1) => (.err e, c1)
  | (.ok r1, c1) =>
    match certCertPhase c1 r1 0 with
    | .error e => (.err e, c1)
    | .ok (r2, n2) =>
      match certChainPhase c1 r2 n2 with
      | .err e => (.err e, c1)
      | .panic => (.panic, c1)
      | .ok r3 =>
        match certSerialPhase c1 r3 with
        | .err e => (.err e, c1)
        | .panic => (.panic, c1)
        | .ok c2 => (.ok r3, c2)

/-- `(*ParsedCertBundle).ToCertBundle`: re-encode the parsed bundle as a
string bundle.  The body of the Go function contains no error return; the
`Except` in the type mirrors its `(*CertBundle, error)` signature. -/
def ParsedCertBundle.ToCertBundle (p : ParsedCertBundle) : Except Err CertBundle :=
  let serial : String :=
    match p.certificate with
    | some cert => serialHex cert.data.serialVal
    | none => ""
  let certText : PemStr :=
    match p.certificateBytes with
    | some bs => if bs.isEmptyBytes then .empty else pemEncodeTrimmed "CERTIFICATE" bs
    | none => .empty
  let chainTexts : List PemStr :=
    p.caChain.map fun cb => pemEncodeTrimmed "CERTIFICATE" cb.bytes
  match p.privateKeyBytes with
  | some bs =>
    if bs.isEmptyBytes then
      .ok ⟨"", certText, .empty, chainTexts, .empty, serial⟩
    else
      let label :=
        if p.privateKeyFormat = "" then
          match p.privateKeyType with
          | "ec" => "EC PRIVATE KEY"
          | "rsa" => "RSA PRIVATE KEY"
          | _ => ""
        else p.privateKeyFormat
      .ok ⟨p.privateKeyType, certText, .empty, chainTexts,
           pemEncodeTrimmed label bs, serial⟩
  | none => .ok ⟨"", certText, .empty, chainTexts, .empty, serial⟩

/-- An entry of the computed trust path: a `*CertBlock` whose fields may be
nil (the leaf entry copies `p.Certificate` / `p.CertificateBytes` verbatim,
and either may be nil). -/
structure PathEntry where
  certificate : Option Cert
  bytes : Option Bytes
  deriving DecidableEq, Repr

/-- `(*ParsedCertBundle).GetCertificatePath` (lines 317-333): the leaf entry
followed by the CA chain.  When the chain is non-empty the code compares
`p.CAChain[0].Certificate.SerialNumber != p.Certificate.SerialNumber`: a Go
`!=` on two `*big.Int` pointers, i.e. a comparison of allocation identities
(`serialPtr`), not of serial values; when the pointers coincide the whole
chain is omitted.  Reading `p.Certificate.SerialNumber` dereferences nil
(panics) when the bundle has a chain but no leaf certificate. -/
def ParsedCertBundle.GetCertificatePath (p : ParsedCertBundle) : Res (List PathEntry) :=
  let leafEntry : PathEntry := ⟨p.certificate, p.certificateBytes⟩
  match p.caChain with
  | [] => .ok [leafEntry]
  | c0 :: rest =>
    match p.certificate with
    | none => .panic
    | some leaf =>
      if c0.certificate.serialPtr ≠ leaf.serialPtr then
        .ok (leafEntry :: (c0 :: rest).map fun cb => ⟨some cb.certificate, some cb.bytes⟩)
      else .ok [leafEntry]

/-- The loop of `Verify` over `certPath[1:]` (lines 303-311): `child` is
`certPath[i]`, the list argument holds `certPath[i+1:]`.  Each step reads
`caCert.Certificate.IsCA` and `certPath[i].Certificate.AuthorityKeyId`,
panicking if the corresponding decoded certificate is nil. -/
def verifyWalk : PathEntry → List PathEntry → Nat → Res Unit
  | _, [], _ => .ok ()
  | child, parent :: rest, i =>
    match parent.certificate with
    | none => .panic
    | some pc =>
      if !pc.data.isCA then .err (.notCAErr (i + 1))
      else
        match child.certificate with
        | none => .panic
        | some cc =>
          if cc.data.authorityKeyId ≠ pc.data.subjectKeyId then
            .err (.trustPathErr (i + 1) cc.data.commonName pc.data.commonName)
          else verifyWalk parent rest (i + 1)

/-- `(*ParsedCertBundle).Verify` (lines 289-315): check the private key
against the certificate's public key when both are present, then walk the
trust path checking each adjacent pair. -/
def ParsedCertBundle.Verify (p : ParsedCertBundle) : Res Unit :=
  let keyCheck : Res Unit :=
    match p.privateKey, p.certificate with
    | some sk, some cert =>
      match ComparePublicKeys cert.data.publicKey sk.Public with
      | .error m => .err (.comparePublicKeysErr m)
      | .ok false => .err .publicKeyMismatch
      | .ok true => .ok ()
    | _, _ => .ok ()
  match keyCheck with
  | .err e => .err e
  | .panic => .panic
  | .ok _ =>
    match p.GetCertificatePath with
    | .err e => .err e
    | .panic => .panic
    | .ok certPath =>
      if certPath.length > 1 then
        match certPath with
        | [] => .ok ()
        | first :: rest => verifyWalk first rest 0
      else .ok ()

/-- A `tls.Certificate` value, with the fields the engine sets. -/
structure TLSCert where
  certificate : List Bytes
  privateKey : Option Signer
  leaf : Option Cert
  deriving DecidableEq, Repr

/-- A `*x509.CertPool`, modelled as the decoded certificates it holds. -/
abbrev CertPool := List CertData

/-- `(*x509.CertPool).AppendCertsFromPEM` on one of the engine's PEM texts:
append each decodable block whose label is `CERTIFICATE` and whose payload
parses as a certificate; report whether anything was appended. -/
def appendCertsFromPEM (pool : CertPool) : PemStr → CertPool × Bool
  | .block _ "CERTIFICATE" (.certDer d) _ => (pool ++ [d], true)
  | _ => (pool, false)

/-- A `*tls.Config`, with the fields the engine sets.  `minVersion` uses the
TLS version codes (`tls.VersionTLS12 = 0x0303 = 771`); `clientAuth` uses the
`tls.ClientAuthType` codes (`tls.VerifyClientCertIfGiven = 3`).  The
`NameToCertificate` index rebuilt by `BuildNameToCertificate` is derived
data and is not modelled. -/
structure TLSConfig where
  minVersion : Nat
  rootCAs : Option CertPool
  clientCAs : Option CertPool
  clientAuth : Nat
  certificates : List TLSCert
  deriving DecidableEq, Repr

/-- `tls.VersionTLS12`. -/
def VersionTLS12 : Nat := 771

/-- `tls.VerifyClientCertIfGiven`. -/
def VerifyClientCertIfGiven : Nat := 3

/-- The `TLSUsage` flag values (`TLSServer = 2`, `TLSClient = 4`, from the
`iota`-based constant block). -/
def TLSServer : Nat := 2

/-- `TLSClient = 4`. -/
def TLSClient : Nat := 4

/-- `(*ParsedCertBundle).GetTLSConfig` (lines 526-579). -/
def ParsedCertBundle.GetTLSConfig (p : ParsedCertBundle) (usage : Nat) : Res TLSConfig :=
  let tlsCert0 : TLSCert := ⟨[], none, none⟩
  let tlsCert1 :=
    match p.certificate with
    | some c => { tlsCert0 with leaf := some c }
    | none => tlsCert0
  let tlsCert2 :=
    match p.privateKey with
    | some k => { tlsCert1 with privateKey := some k }
    | none => tlsCert1
  let tlsCert3 :=
    match p.certificateBytes with
    | some bs =>
      if bs.isEmptyBytes then tlsCert2
      else { tlsCert2 with certificate := tlsCert2.certificate ++ [bs] }
    | none => tlsCert2
  let cfg0 : TLSConfig := ⟨VersionTLS12, none, none, 0, []⟩
  let finish : TLSConfig → TLSCert → Res TLSConfig := fun cfg tc =>
    if tc.certificate.length > 0 then .ok { cfg with certificates := [tc] }
    else .ok cfg
  match p.caChain with
  | [] => finish cfg0 tlsCert3
  | c0 :: rest =>
    let tlsCert4 :=
      { tlsCert3 with
        certificate := tlsCert3.certificate ++ ((c0 :: rest).map CertBlock.bytes) }
    match p.ToCertBundle with
    | .error e => .err (.tlsConvert e)
    | .ok certBundle =>
      match certBundle.caChain with
      | [] => .panic
      | ca0 :: _ =>
        match appendCertsFromPEM [] ca0 with
        | (_, false) => .err .appendCACert
        | (pool, true) =>
          let cfg1 :=
            if usage &&& TLSServer > 0 then
              { cfg0 with clientCAs := some pool, clientAuth := VerifyClientCertIfGiven }
            else cfg0
          let cfg2 :=
            if usage &&& TLSClient > 0 then { cfg1 with rootCAs := some pool }
            else cfg1
          finish cfg2 tlsCert4

/-- `(*ParsedCSRBundle).getSigner` (lines 487-512): unlike the cert-bundle
variant this switches on the key *type* tag, and has no PKCS#8 branch. -/
def ParsedCSRBundle.getSigner (p : ParsedCSRBundle) : Except Err Signer :=
  match p.privateKeyBytes with
  | none => .error .noPrivateKeyInfo
  | some bs =>
    if bs.isEmptyBytes then .error .noPrivateKeyInfo
    else
      match p.privateKeyType with
      | "ec" =>
        match parseECPrivateKey bs with
        | some k => .ok k
        | none => .error .parseECKey
      | "rsa" =>
        match parsePKCS1PrivateKey bs with
        | some k => .ok k
        | none => .error .parseRSAKey
      | _ => .error .undeterminedKeyType

/-- The private-key phase of `ToParsedCSRBundle` (lines 406-435): the block
label is switched on untrimmed; unrecognized labels fall back to trial
decoding (EC first, then PKCS#1), and only that fallback branch writes the
inferred type back onto the string bundle. -/
def csrKeyPhase (c : CSRBundle) (result : ParsedCSRBundle) :
    Except Err ParsedCSRBundle × CSRBundle :=
  if c.privateKey.isNonempty then
    match pemDecode c.privateKey with
    | none => (.error .decodePrivateKey, c)
    | some (label, bytes) =>
      let result := { result with privateKeyBytes := some bytes }
      let step2 : Except Err ParsedCSRBundle × CSRBundle :=
        match label with
        | "EC PRIVATE KEY" => (.ok { result with privateKeyType := "ec" }, c)
        | "RSA PRIVATE KEY" => (.ok { result with privateKeyType := "rsa" }, c)
        | _ =>
          match parseECPrivateKey bytes with
          | some _ =>
            (.ok { result with privateKeyType := "ec" },
             { c with privateKeyType := "ec" })
          | none =>
            match parsePKCS1PrivateKey bytes with
            | some _ =>
              (.ok { result with privateKeyType := "rsa" },
               { c with privateKeyType := "rsa" })
            | none => (.error (.unknownKeyTypeInBundle c.privateKeyType), c)
      match step2 with
      | (.error e, c') => (.error e, c')
      | (.ok r, c') =>
        match r.getSigner with
        | .error e => (.error (.gettingSigner e), c')
        | .ok k => (.ok { r with privateKey := some k }, c')
  else (.ok result, c)

/-- `(*CSRBundle).ToParsedCSRBundle` (lines 401-450).  As with
`ToParsedCertBundle`, the second component is the receiver after the call. -/
def CSRBundle.ToParsedCSRBundle (c : CSRBundle) :
    Res ParsedCSRBundle × CSRBundle :=
  match csrKeyPhase c ParsedCSRBundle.empty with
  | (.error e, c1) => (.err e, c1)
  | (.ok r1, c1) =>
    if c1.csr.isNonempty then
      match pemDecode c1.csr with
      | none => (.err .decodeCertificate, c1)
      | some (_, bytes) =>
        match parseCertificateRequest bytes with
        | none => (.err .parseCertificateBytes, c1)
        | some csr =>
          (.ok { r1 with csrBytes := some bytes, csr := some csr }, c1)
    else (.ok r1, c1)

/-- `(*ParsedCSRBundle).ToCSRBundle` (lines 454-481): this variant does
fail, with an internal error, when the key type is neither rsa nor ec. -/
def ParsedCSRBundle.ToCSRBundle (p : ParsedCSRBundle) : Except Err CSRBundle :=
  let csrText : PemStr :=
    match p.csrBytes with
    | some bs => if bs.isEmptyBytes then .empty else pemEncodeTrimmed "CERTIFICATE REQUEST" bs
    | none => .empty
  match p.privateKeyBytes with
  | some bs =>
    if bs.isEmptyBytes then .ok ⟨"", csrText, .empty⟩
    else
      match p.privateKeyType with
      | "rsa" => .ok ⟨"rsa", csrText, pemEncodeTrimmed "RSA PRIVATE KEY" bs⟩
      | "ec" => .ok ⟨"ec", csrText, pemEncodeTrimmed "EC PRIVATE KEY" bs⟩
      | _ => .error .csrInternalKeyType
  | none => .ok ⟨"", csrText, .empty⟩

/-
Shared lemmas about the phases of `ToParsedCertBundle`.
-/

/-- The certificate phase touches only `certificateBytes` and `certificate`. -/
theorem certCertPhase_preserves {c : CertBundle} {r r' : ParsedCertBundle} {n n' : Nat}
    (h : certCertPhase c r n = .ok (r', n')) :
    r'.privateKeyType = r.privateKeyType ∧ r'.privateKeyFormat = r.privateKeyFormat ∧
    r'.privateKeyBytes = r.privateKeyBytes ∧ r'.privateKey = r.privateKey ∧
    r'.caChain = r.caChain ∧ r'.serialNumber = r.serialNumber := by
  unfold certCertPhase at h
  split at h
  · cases hd : pemDecode c.certificate with
    | none => rw [hd] at h; exact absurd h (by simp)
    | some lb =>
      rw [hd] at h
      cases hp : parseCertificate lb.2 n with
      | none => simp [hp] at h
      | some cn =>
        simp [hp] at h
        obtain ⟨h1, _⟩ := h
        subst h1
        simp
  · simp at h
    obtain ⟨h1, _⟩ := h
    subst h1
    simp

/-- The chain phase touches only `caChain` and `serialNumber`. -/
theorem certChainPhase_preserves {c : CertBundle} {r r' : ParsedCertBundle} {n : Nat}
    (h : certChainPhase c r n = .ok r') :
    r'.privateKeyType = r.privateKeyType ∧ r'.privateKeyFormat = r.privateKeyFormat ∧
    r'.privateKeyBytes = r.privateKeyBytes ∧ r'.privateKey = r.privateKey ∧
    r'.certificateBytes = r.certificateBytes ∧ r'.certificate = r.certificate := by
  unfold certChainPhase at h
  split at h
  · cases hl : parseChainLoop c.caChain n with
    | error e => rw [hl] at h; exact absurd h (by simp)
    | ok bn =>
      rw [hl] at h
      simp at h
      subst h
      simp
  · split at h
    · cases hd : pemDecode c.issuingCA with
      | none => rw [hd] at h; exact absurd h (by simp)
      | some lb =>
        rw [hd] at h
        cases hp : parseCertificate lb.2 n with
        | none => simp [hp] at h
        | some cn =>
          simp [hp] at h
          cases hc : r.certificate with
          | none => rw [hc] at h; exact absurd h (by simp)
          | some leaf =>
            rw [hc] at h
            simp at h
            subst h
            simp [hc]
    · simp at h
      subst h
      simp

/-- The serial backfill touches only the bundle's `serialNumber`. -/
theorem certSerialPhase_preserves {c c' : CertBundle} {r : ParsedCertBundle}
    (h : certSerialPhase c r = .ok c') :
    c'.privateKeyType = c.privateKeyType ∧ c'.certificate = c.certificate ∧
    c'.issuingCA = c.issuingCA ∧ c'.caChain = c.caChain ∧ c'.privateKey = c.privateKey := by
  unfold certSerialPhase at h
  split at h
  · cases hc : r.certificate with
    | none => rw [hc] at h; exact absurd h (by simp)
    | some cert => rw [hc] at h; simp at h; subst h; simp
  · simp at h; subst h; simp

/-- The key phase touches only the bundle's `privateKeyType`. -/
theorem certKeyPhase_bundle_preserves (c : CertBundle) (r : ParsedCertBundle) :
    (certKeyPhase c r).2.certificate = c.certificate ∧
    (certKeyPhase c r).2.issuingCA = c.issuingCA ∧
    (certKeyPhase c r).2.caChain = c.caChain ∧
    (certKeyPhase c r).2.privateKey = c.privateKey ∧
    (certKeyPhase c r).2.serialNumber = c.serialNumber := by
  unfold certKeyPhase
  split
  · cases hd : pemDecode c.privateKey with
    | none => simp
    | some lb =>
      simp only
      split <;> (repeat' split) <;> simp
  · simp

/-- Project the parsed bundle out of an outcome (default for the non-ok cases). -/
def resultBundle : Res ParsedCertBundle → ParsedCertBundle
  | .ok p => p
  | _ => ParsedCertBundle.empty

/-- Decomposition of a call to `ToParsedCertBundle` into its four phases. -/
theorem ToParsedCertBundle_decomp (c : CertBundle) :
    ∃ out1, certKeyPhase c ParsedCertBundle.empty = out1 ∧
    c.ToParsedCertBundle = (match out1 with
      | (.error e, c1) => (.err e, c1)
      | (.ok r1, c1) =>
        match certCertPhase c1 r1 0 with
        | .error e => (.err e, c1)
        | .ok (r2, n2) =>
          match certChainPhase c1 r2 n2 with
          | .err e => (.err e, c1)
          | .panic => (.panic, c1)
          | .ok r3 =>
            match certSerialPhase c1 r3 with
            | .err e => (.err e, c1)
            | .panic => (.panic, c1)
            | .ok c2 => (.ok r3, c2)) :=
  ⟨certKeyPhase c ParsedCertBundle.empty, rfl, rfl⟩

/-
Claim C1.  `GetCertificatePath` compares the serial-number fields of the
chain head and the leaf with Go `!=` on `*big.Int`, i.e. by pointer, and
`ToParsedCertBundle` allocates a fresh `*big.Int` per parsed certificate, so
a chain head whose serial VALUE equals the leaf's is appended anyway: the
path has chain length + 1 entries, not chain length.
-/

/-- Leaf certificate data for the C1 failing input: serial number 5. -/
def c1LeafData : CertData := ⟨5, true, [1, 2], [3, 4], "example.com", .rsa 9⟩

/-- Chain-head certificate data for the C1 failing input: the same serial
number 5 (a root that placed itself first in the chain). -/
def c1RootData : CertData := ⟨5, true, [9], [1, 2], "root ca", .rsa 10⟩

/-- The C1 failing input: a string bundle whose chain's first (and only)
entry has the same serial number as the leaf. -/
def c1Bundle : CertBundle :=
  ⟨"", .block "" "CERTIFICATE" (.certDer c1LeafData) "", .empty,
   [.block "" "CERTIFICATE" (.certDer c1RootData) ""], .empty, ""⟩

/-- The parsed form of the C1 failing input. -/
def c1Parsed : ParsedCertBundle := resultBundle (c1Bundle.ToParsedCertBundle).1

/-- C1: for the parsed bundle obtained from a chain whose first entry has
the same serial number as the leaf certificate, the trust path computed by
`GetCertificatePath` is NOT deduplicated: parsing succeeds, the leaf and the
chain head both carry serial value 5, the chain has one entry, yet the path
has two entries (chain length + 1), because the code compares the
`*big.Int` serial pointers (always distinct after parsing) instead of the
serial values. -/
theorem C1_equal_serial_path_not_deduplicated :
    (c1Bundle.ToParsedCertBundle).1 = .ok c1Parsed ∧
    (c1Parsed.certificate.map fun c => c.data.serialVal) = some 5 ∧
    (c1Parsed.caChain.map fun cb => cb.certificate.data.serialVal) = [5] ∧
    c1Parsed.caChain.length = 1 ∧
    c1Parsed.GetCertificatePath =
      .ok [⟨c1Parsed.certificate, c1Parsed.certificateBytes⟩,
           ⟨some ⟨c1RootData, 1⟩, some (.certDer c1RootData)⟩] ∧
    (resultBundle (c1Bundle.ToParsedCertBundle).1).GetCertificatePath ≠
      .ok [⟨c1Parsed.certificate, c1Parsed.certificateBytes⟩] :=
  ⟨rfl, rfl, rfl, rfl, rfl, by decide⟩

/-
Claim C8.  In the legacy issuing-CA fallback branch, `ToParsedCertBundle`
reads `result.Certificate.SerialNumber` (types.go line 224).  When the
bundle carries only the legacy issuing-CA field and no certificate,
`result.Certificate` is nil and the read panics, instead of accepting the
bundle with a one-element chain.
-/

/-- The C8 failing input: a bundle carrying only the legacy issuing-CA
field (a valid CA certificate), no leaf certificate. -/
def c8Bundle : CertBundle :=
  ⟨"", .empty, .block "" "CERTIFICATE" (.certDer c1RootData) "", [], .empty, ""⟩

/-- C8: a bundle carrying only the legacy issuing-CA field makes
`ToParsedCertBundle` dereference the nil `result.Certificate` (a panic),
rather than succeed with a one-element chain. -/
theorem C8_legacy_only_bundle_panics :
    (c8Bundle.ToParsedCertBundle).1 = Res.panic := rfl

/-
Claim C7.  `ToCertBundle`'s body contains no error return at all: the
internal-fault error for a key type that is neither rsa nor ec exists only
in `ToCSRBundle`.  A parsed bundle with key bytes and an unknown key type is
re-encoded (under the stored, possibly empty, block label), not rejected.
-/

/-- Whether a `ToCertBundle` call returned a value. -/
def certBundleOk : Except Err CertBundle → Bool
  | .ok _ => true
  | .error _ => false

/-- A parsed bundle holding private-key bytes whose key type is neither rsa
nor ec (and no format label): the claim's exception case. -/
def c7Bad : ParsedCertBundle :=
  { ParsedCertBundle.empty with privateKeyBytes := some (.raw [1]) }

/-- C7 counterexample: on a parsed bundle containing private-key bytes
whose key type is neither rsa nor ec, `ToCertBundle` succeeds (encoding the
key under an empty PEM label) instead of returning the internal-fault error
the claim requires. -/
theorem C7_counterexample_unknown_key_type_succeeds :
    c7Bad.privateKeyType = "" ∧
    (c7Bad.privateKeyBytes.map Bytes.isEmptyBytes) = some false ∧
    c7Bad.ToCertBundle =
      .ok ⟨"", .empty, .empty, [], .block "" "" (.raw [1]) "", ""⟩ ∧
    certBundleOk c7Bad.ToCertBundle = true :=
  ⟨rfl, rfl, rfl, rfl⟩

/-- C7 (amended): `ToCertBundle` never returns an error on ANY parsed
bundle; in particular a private key whose type is neither rsa nor ec is
PEM-encoded under the stored (possibly empty) block label rather than
rejected with an internal-fault error (that error exists in `ToCSRBundle`,
not `ToCertBundle`). -/
theorem C7_ToCertBundle_never_errors (p : ParsedCertBundle) :
    ∃ b, p.ToCertBundle = Except.ok b := by
  unfold ParsedCertBundle.ToCertBundle
  cases p.privateKeyBytes with
  | none => exact ⟨_, rfl⟩
  | some bs =>
    by_cases h : bs.isEmptyBytes <;> simp [h]

/-
Claim C2.  The chain walk of `Verify`, stated over the decoded certificates
of the trust path.
-/

/-- The pure form of the `Verify` chain walk, on decoded certificates:
`walkCerts child parents i` is the walk with `child = certPath[i]` and
`parents = certPath[i+1:]`. -/
def walkCerts : Cert → List Cert → Nat → Res Unit
  | _, [], _ => .ok ()
  | child, parent :: rest, i =>
    if !parent.data.isCA then .err (.notCAErr (i + 1))
    else if child.data.authorityKeyId ≠ parent.data.subjectKeyId then
      .err (.trustPathErr (i + 1) child.data.commonName parent.data.commonName)
    else walkCerts parent rest (i + 1)

/-- Adjacent-pair linkage: every parent in the list has its CA flag set and
its subject key identifier equals its child's authority key identifier. -/
def chainLinkedB : List Cert → Bool
  | [] => true
  | [_] => true
  | a :: b :: rest =>
    (b.data.isCA && a.data.authorityKeyId == b.data.subjectKeyId) &&
      chainLinkedB (b :: rest)

/-- `verifyWalk` over entries that all carry a decoded certificate computes
`walkCerts` over those certificates. -/
theorem verifyWalk_eq_walkCerts (child : Cert) (cb : Option Bytes)
    (parents : List CertBlock) (i : Nat) :
    verifyWalk ⟨some child, cb⟩
      (parents.map fun b => ⟨some b.certificate, some b.bytes⟩) i =
      walkCerts child (parents.map CertBlock.certificate) i := by
  induction parents generalizing child cb i with
  | nil => rfl
  | cons b rest ih =>
    simp only [List.map_cons, verifyWalk, walkCerts]
    split
    · rfl
    · split
      · rfl
      · exact ih b.certificate (some b.bytes) (i + 1)

/-- A fully linked list of certificates walks to `ok`. -/
theorem walkCerts_ok_of_linked (parents : List Cert) :
    ∀ (child : Cert) (i : Nat), chainLinkedB (child :: parents) = true →
    walkCerts child parents i = .ok () := by
  induction parents with
  | nil => intro child i _; rfl
  | cons b rest ih =>
    intro child i h
    simp only [chainLinkedB, Bool.and_eq_true, beq_iff_eq] at h
    obtain ⟨⟨hca, hkid⟩, hrest⟩ := h
    simp only [walkCerts, hca, hkid]
    simpa using ih b (i + 1) hrest

/-- A linked prefix is traversed without error: when `child :: pre ++ [c]`
is fully linked, the walk starting at `child` over `pre ++ c :: tail` runs
down to the walk starting at `c` over `tail`, with the index advanced past
the prefix. -/
theorem walkCerts_skip_linked (pre : List Cert) :
    ∀ (child c : Cert) (tail : List Cert) (i : Nat),
    chainLinkedB (child :: (pre ++ [c])) = true →
    walkCerts child (pre ++ c :: tail) i = walkCerts c tail (i + pre.length + 1) := by
  induction pre with
  | nil =>
    intro child c tail i h
    simp only [List.nil_append, chainLinkedB, Bool.and_eq_true, beq_iff_eq] at h
    obtain ⟨⟨hca, hkid⟩, _⟩ := h
    simp [walkCerts, hca, hkid]
  | cons y ys ih =>
    intro child c tail i h
    simp only [List.cons_append, chainLinkedB, Bool.and_eq_true, beq_iff_eq] at h
    obtain ⟨⟨hca, hkid⟩, hrest⟩ := h
    have hys : chainLinkedB (y :: (ys ++ [c])) = true := by
      simpa [chainLinkedB] using hrest
    have hstep := ih y c tail (i + 1) hys
    simp only [List.cons_append, walkCerts, hca, hkid, List.append_eq,
      Bool.not_true, Bool.false_eq_true, if_false, ne_eq, not_true_eq_false,
      ite_false]
    rw [hstep]
    congr 1
    simp only [List.length_cons]
    omega

/-- Under the C2 hypotheses (no private key, a leaf certificate, a chain
whose head's serial pointer differs from the leaf's), `Verify` computes the
pure chain walk over the decoded certificates of the path. -/
theorem Verify_eq_walkCerts (p : ParsedCertBundle) (leaf : Cert)
    (c0 : CertBlock) (rest : List CertBlock)
    (hpk : p.privateKey = none) (hc : p.certificate = some leaf)
    (hchain : p.caChain = c0 :: rest)
    (hptr : c0.certificate.serialPtr ≠ leaf.serialPtr) :
    p.Verify = walkCerts leaf ((c0 :: rest).map CertBlock.certificate) 0 := by
  unfold ParsedCertBundle.Verify ParsedCertBundle.GetCertificatePath
  rw [hpk, hc, hchain]
  simp only [if_pos hptr, List.map_cons, List.length_cons, ne_eq]
  rw [if_pos (by omega)]
  simpa using verifyWalk_eq_walkCerts leaf p.certificateBytes (c0 :: rest) 0

/-- C2: for a parsed bundle with a leaf certificate and no private key
(so the key-match precheck is skipped), `Verify` checks each adjacent pair
of the trust path starting from the leaf: with an empty chain (a
single-element path) it returns no error; with a non-trivial path, if after
some fully linked prefix the parent of the first failing pair has its CA
flag unset, it returns the not-a-certificate-authority error citing that
parent's position, and if the CA flag is set but the parent's subject key
identifier differs from the child's authority key identifier, it returns
the trust-path error citing the two common names; if every pair is linked
it returns no error. -/
theorem C2_Verify_checks_adjacent_pairs (p : ParsedCertBundle) (leaf : Cert)
    (hpk : p.privateKey = none) (hc : p.certificate = some leaf) :
    (p.caChain = [] → p.Verify = .ok ()) ∧
    (∀ c0 rest, p.caChain = c0 :: rest →
      c0.certificate.serialPtr ≠ leaf.serialPtr →
      (chainLinkedB (leaf :: (c0 :: rest).map CertBlock.certificate) = true →
        p.Verify = .ok ()) ∧
      (∀ pre c c' post,
        leaf :: (c0 :: rest).map CertBlock.certificate = pre ++ c :: c' :: post →
        chainLinkedB (pre ++ [c]) = true →
        (c'.data.isCA = false →
          p.Verify = .err (.notCAErr (pre.length + 1))) ∧
        (c'.data.isCA = true →
          c.data.authorityKeyId ≠ c'.data.subjectKeyId →
          p.Verify = .err (.trustPathErr (pre.length + 1)
            c.data.commonName c'.data.commonName)))) := by
  constructor
  · intro hchain
    unfold ParsedCertBundle.Verify ParsedCertBundle.GetCertificatePath
    rw [hpk, hchain]
    simp
  · intro c0 rest hchain hptr
    have hverify := Verify_eq_walkCerts p leaf c0 rest hpk hc hchain hptr
    constructor
    · intro hlinked
      rw [hverify]
      exact walkCerts_ok_of_linked _ leaf 0 hlinked
    · intro pre c c' post heq hlinked
      cases pre with
      | nil =>
        simp only [List.nil_append] at heq
        have hleaf : leaf = c := (List.cons.injEq .. ▸ heq).1
        have htail : (c0 :: rest).map CertBlock.certificate = c' :: post :=
          (List.cons.injEq .. ▸ heq).2
        subst hleaf
        rw [hverify, htail]
        constructor
        · intro hca
          simp [walkCerts, hca]
        · intro hca hkid
          simp [walkCerts, hca, hkid]
      | cons x pre' =>
        simp only [List.cons_append] at heq
        have hleaf : leaf = x := (List.cons.injEq .. ▸ heq).1
        have htail : (c0 :: rest).map CertBlock.certificate =
            pre' ++ c :: c' :: post := (List.cons.injEq .. ▸ heq).2
        subst hleaf
        have hlink' : chainLinkedB (leaf :: (pre' ++ [c])) = true := by
          simpa [List.cons_append] using hlinked
        have hskip := walkCerts_skip_linked pre' leaf c (c' :: post) 0 hlink'
        rw [hverify, htail, hskip]
        constructor
        · intro hca
          simp only [walkCerts, hca, Bool.not_false, if_true, if_pos]
          congr 1
          simp only [List.length_cons]
          congr 1
          omega
        · intro hca hkid
          simp only [walkCerts, hca, hkid, Bool.not_true, Bool.false_eq_true,
            if_false, ne_eq, not_false_eq_true, if_true, ite_false]
          simp only [List.length_cons, if_neg (by simpa using hkid)]
          congr 2
          omega

/-- Concrete data for the C2 witness: a linked two-certificate path. -/
def c2Leaf : Cert := ⟨⟨7, false, [1, 2], [3, 4], "leaf", .rsa 1⟩, 0⟩

/-- The CA block above `c2Leaf`: CA flag set, subject key id `[1, 2]`. -/
def c2CA : CertBlock := ⟨⟨⟨8, true, [9, 9], [1, 2], "ca", .rsa 2⟩, 1⟩, .certDer ⟨8, true, [9, 9], [1, 2], "ca", .rsa 2⟩⟩

/-- The C2 witness bundle: leaf plus one linked CA, no private key. -/
def c2Witness : ParsedCertBundle :=
  { ParsedCertBundle.empty with
    certificate := some c2Leaf
    certificateBytes := some (.certDer c2Leaf.data)
    caChain := [c2CA] }

/-- C2 witness: the theorem applied at a concrete linked bundle. -/
theorem C2_witness : c2Witness.Verify = .ok () :=
  ((C2_Verify_checks_adjacent_pairs c2Witness c2Leaf rfl rfl).2 c2CA [] rfl
    (by decide)).1 (by decide)

/-
Claim C4.  `GetTLSConfig` usage flags and trust pools.
-/

/-- `ToCertBundle` succeeds and renders the CA chain as trimmed
`CERTIFICATE` PEM texts. -/
theorem ToCertBundle_chain (p : ParsedCertBundle) :
    ∃ b, p.ToCertBundle = Except.ok b ∧
      b.caChain = p.caChain.map fun cb => pemEncodeTrimmed "CERTIFICATE" cb.bytes := by
  unfold ParsedCertBundle.ToCertBundle
  cases p.privateKeyBytes with
  | none => exact ⟨_, rfl, rfl⟩
  | some bs => by_cases h : bs.isEmptyBytes <;> simp [h]

/-- The pools and client-auth mode installed by `GetTLSConfig`, for a
parsed bundle whose chain's first entry carries a parseable certificate,
as a function of the usage flags. -/
theorem GetTLSConfig_pools (p : ParsedCertBundle) (c0 : CertBlock)
    (rest : List CertBlock) (d : CertData) (usage : Nat)
    (hchain : p.caChain = c0 :: rest) (hbytes : c0.bytes = .certDer d) :
    ∃ cfg, p.GetTLSConfig usage = .ok cfg ∧
      cfg.clientCAs = (if usage &&& TLSServer > 0 then some [d] else none) ∧
      cfg.clientAuth = (if usage &&& TLSServer > 0 then VerifyClientCertIfGiven else 0) ∧
      cfg.rootCAs = (if usage &&& TLSClient > 0 then some [d] else none) ∧
      cfg.minVersion = VersionTLS12 := by
  obtain ⟨b, hb, hbchain⟩ := ToCertBundle_chain p
  unfold ParsedCertBundle.GetTLSConfig
  rw [hchain, hb]
  simp only
  rw [hbchain, hchain]
  simp only [List.map_cons]
  rw [hbytes]
  simp only [pemEncodeTrimmed, appendCertsFromPEM, List.nil_append]
  by_cases hs : usage &&& TLSServer > 0 <;> by_cases hcl : usage &&& TLSClient > 0 <;>
    simp only [hs, hcl, if_true, if_false] <;>
    split <;> exact ⟨_, rfl, by simp [hs, hcl]⟩

/-- C4: for a parsed bundle with a non-empty CA chain (whose first entry
carries a parseable certificate), `GetTLSConfig` with usage = server
populates the client-CA pool from the chain's first entry and sets
client-certificate verification to verify-if-given while leaving the
root-trust pool nil; with usage = client it populates the root-trust pool
while leaving the client-CA pool nil; with usage = both it installs the
same pool in both places. -/
theorem C4_GetTLSConfig_usage_pools (p : ParsedCertBundle) (c0 : CertBlock)
    (rest : List CertBlock) (d : CertData)
    (hchain : p.caChain = c0 :: rest) (hbytes : c0.bytes = .certDer d) :
    (∃ cfg, p.GetTLSConfig TLSServer = .ok cfg ∧
      cfg.clientCAs = some [d] ∧ cfg.clientAuth = VerifyClientCertIfGiven ∧
      cfg.rootCAs = none) ∧
    (∃ cfg, p.GetTLSConfig TLSClient = .ok cfg ∧
      cfg.rootCAs = some [d] ∧ cfg.clientCAs = none) ∧
    (∃ cfg, p.GetTLSConfig (TLSServer ||| TLSClient) = .ok cfg ∧
      cfg.clientCAs = some [d] ∧ cfg.rootCAs = some [d] ∧
      cfg.clientCAs = cfg.rootCAs) := by
  refine ⟨?_, ?_, ?_⟩
  · obtain ⟨cfg, h1, h2, h3, h4, _⟩ :=
      GetTLSConfig_pools p c0 rest d TLSServer hchain hbytes
    exact ⟨cfg, h1, by simpa using h2, by simpa using h3, by simpa using h4⟩
  · obtain ⟨cfg, h1, h2, h3, h4, _⟩ :=
      GetTLSConfig_pools p c0 rest d TLSClient hchain hbytes
    exact ⟨cfg, h1, by simpa using h4, by simpa using h2⟩
  · obtain ⟨cfg, h1, h2, h3, h4, _⟩ :=
      GetTLSConfig_pools p c0 rest d (TLSServer ||| TLSClient) hchain hbytes
    have h2' : cfg.clientCAs = some [d] := by simpa using h2
    have h4' : cfg.rootCAs = some [d] := by simpa using h4
    exact ⟨cfg, h1, h2', h4', by rw [h2', h4']⟩

/-- C4 witness: the server-usage conclusion at a concrete bundle with a
one-element chain. -/
theorem C4_witness :
    ∃ cfg, c2Witness.GetTLSConfig TLSServer = .ok cfg ∧
      cfg.clientCAs = some [c2CA.certificate.data] ∧
      cfg.clientAuth = VerifyClientCertIfGiven ∧ cfg.rootCAs = none :=
  (C4_GetTLSConfig_usage_pools c2Witness c2CA [] c2CA.certificate.data rfl rfl).1

/-
Claims C5 and C10 share these observations about how the outcome of the key
phase propagates through the rest of `ToParsedCertBundle`.
-/

/-- When the key phase fails, `ToParsedCertBundle` returns its error and the
bundle the key phase left behind. -/
theorem ToParsedCertBundle_keyphase_err (c : CertBundle) (e : Err) (c1 : CertBundle)
    (h : certKeyPhase c ParsedCertBundle.empty = (.error e, c1)) :
    c.ToParsedCertBundle = (.err e, c1) := by
  unfold CertBundle.ToParsedCertBundle
  rw [h]

/-- When the key phase succeeds, the key-type tag it wrote onto the string
bundle survives to the end of the call whatever the later phases do, and a
successful call's parsed bundle keeps the key type the key phase chose. -/
theorem ToParsedCertBundle_keyphase_ok (c : CertBundle) (r1 : ParsedCertBundle)
    (c1 : CertBundle)
    (h : certKeyPhase c ParsedCertBundle.empty = (.ok r1, c1)) :
    (c.ToParsedCertBundle).2.privateKeyType = c1.privateKeyType ∧
    (∀ p, (c.ToParsedCertBundle).1 = .ok p →
      p.privateKeyType = r1.privateKeyType) := by
  unfold CertBundle.ToParsedCertBundle
  rw [h]
  dsimp only
  cases hcc : certCertPhase c1 r1 0 with
  | error e => simp
  | ok rn =>
    obtain ⟨r2, n2⟩ := rn
    have hp2 := certCertPhase_preserves hcc
    dsimp only
    cases hch : certChainPhase c1 r2 n2 with
    | err e => simp
    | panic => simp
    | ok r3 =>
      have hp3 := certChainPhase_preserves hch
      dsimp only
      cases hsp : certSerialPhase c1 r3 with
      | err e => simp
      | panic => simp
      | ok c2 =>
        have hp4 := certSerialPhase_preserves hsp
        dsimp only
        rw [hp4.1]
        refine ⟨rfl, ?_⟩
        intro p hp
        cases hp
        rw [hp3.1, hp2.1]

/-
Claim C5.  PKCS#8-labelled keys in `ToParsedCertBundle`.
-/

/-- C5: for a string bundle whose private key carries the PKCS#8 label
(`PRIVATE KEY` after trimming), `ToParsedCertBundle` structurally decodes
the payload: on decode failure it returns the pkcs8 format error; a wrapped
algorithm that is neither rsa nor ec is rejected; a wrapped EC key tags
both the input bundle and the parsed result `ec`, and a wrapped RSA key
tags them `rsa`. -/
theorem C5_pkcs8_key_classification (c : CertBundle)
    (lead label trail : String) (bytes : Bytes)
    (hkey : c.privateKey = .block lead label bytes trail)
    (hlabel : trimSpace label = "PRIVATE KEY") :
    (parsePKCS8PrivateKey bytes = none →
      (c.ToParsedCertBundle).1 = .err (.pkcs8TypeError .pkcs8ParseFailed)) ∧
    (∀ t, parsePKCS8PrivateKey bytes = some (.other t) →
      (c.ToParsedCertBundle).1 = .err (.pkcs8TypeError .pkcs8UnknownType)) ∧
    (∀ k, bytes = .pkcs8Der (.ec k) →
      (c.ToParsedCertBundle).2.privateKeyType = "ec" ∧
      ∀ p, (c.ToParsedCertBundle).1 = .ok p → p.privateKeyType = "ec") ∧
    (∀ k, bytes = .pkcs8Der (.rsa k) →
      (c.ToParsedCertBundle).2.privateKeyType = "rsa" ∧
      ∀ p, (c.ToParsedCertBundle).1 = .ok p → p.privateKeyType = "rsa") := by
  refine ⟨?_, ?_, ?_, ?_⟩
  · intro hparse
    have hkp : certKeyPhase c ParsedCertBundle.empty =
        (.error (.pkcs8TypeError .pkcs8ParseFailed), c) := by
      unfold certKeyPhase
      rw [hkey]
      simp only [PemStr.isNonempty, if_true, pemDecode]
      rw [hlabel]
      simp [getPKCS8Type, hparse]
    rw [ToParsedCertBundle_keyphase_err c _ _ hkp]
  · intro t hparse
    have hkp : certKeyPhase c ParsedCertBundle.empty =
        (.error (.pkcs8TypeError .pkcs8UnknownType), c) := by
      unfold certKeyPhase
      rw [hkey]
      simp only [PemStr.isNonempty, if_true, pemDecode]
      rw [hlabel]
      simp [getPKCS8Type, hparse]
    rw [ToParsedCertBundle_keyphase_err c _ _ hkp]
  · intro k hbytes
    subst hbytes
    have hkp : certKeyPhase c ParsedCertBundle.empty =
        (.ok ⟨"ec", "PRIVATE KEY", some (.pkcs8Der (.ec k)), some (.ec k),
              none, none, [], none⟩,
         { c with privateKeyType := "ec" }) := by
      unfold certKeyPhase
      rw [hkey]
      simp only [PemStr.isNonempty, if_true, pemDecode]
      rw [hlabel]
      simp [getPKCS8Type, parsePKCS8PrivateKey, ParsedCertBundle.getSigner,
        Bytes.isEmptyBytes, ParsedCertBundle.empty]
    have := ToParsedCertBundle_keyphase_ok c _ _ hkp
    exact ⟨this.1, this.2⟩
  · intro k hbytes
    subst hbytes
    have hkp : certKeyPhase c ParsedCertBundle.empty =
        (.ok ⟨"rsa", "PRIVATE KEY", some (.pkcs8Der (.rsa k)), some (.rsa k),
              none, none, [], none⟩,
         { c with privateKeyType := "rsa" }) := by
      unfold certKeyPhase
      rw [hkey]
      simp only [PemStr.isNonempty, if_true, pemDecode]
      rw [hlabel]
      simp [getPKCS8Type, parsePKCS8PrivateKey, ParsedCertBundle.getSigner,
        Bytes.isEmptyBytes, ParsedCertBundle.empty]
    have := ToParsedCertBundle_keyphase_ok c _ _ hkp
    exact ⟨this.1, this.2⟩

/-- The C5 witness bundle: a PKCS#8-wrapped EC key with no explicit tag. -/
def c5Witness : CertBundle :=
  ⟨"", .empty, .empty, [], .block "" "PRIVATE KEY" (.pkcs8Der (.ec 7)) "", ""⟩

/-- C5 witness: the wrapped-EC conclusion at the concrete bundle: the input
bundle ends up tagged `ec`. -/
theorem C5_witness : (c5Witness.ToParsedCertBundle).2.privateKeyType = "ec" :=
  (((C5_pkcs8_key_classification c5Witness "" "PRIVATE KEY" ""
    (.pkcs8Der (.ec 7)) rfl rfl).2.2.1) 7 rfl).1

/-
Claim C6.  Key handling of `ToParsedCSRBundle` versus `ToParsedCertBundle`.
-/

/-- The observable outcome of `ToParsedCertBundle`'s key handling on a
key-only bundle: the inferred key type, key bytes, and signer on success,
`none` on failure. -/
def certKeyOutcome (k : PemStr) : Option (String × Option Bytes × Option Signer) :=
  match (CertBundle.mk "" .empty .empty [] k "").ToParsedCertBundle |>.1 with
  | .ok p => some (p.privateKeyType, p.privateKeyBytes, p.privateKey)
  | _ => none

/-- The observable outcome of `ToParsedCSRBundle`'s key handling on a
key-only bundle. -/
def csrKeyOutcome (k : PemStr) : Option (String × Option Bytes × Option Signer) :=
  match (CSRBundle.mk "" .empty k).ToParsedCSRBundle |>.1 with
  | .ok p => some (p.privateKeyType, p.privateKeyBytes, p.privateKey)
  | _ => none

/-- C6 counterexample: on a PKCS#8-wrapped EC key, `ToParsedCertBundle`'s
key handling succeeds with type `ec` while `ToParsedCSRBundle`'s fails
(its trial decode knows only SEC1-EC and PKCS#1), so the two key handlers
do NOT produce the same outcome on every key text. -/
theorem C6_counterexample_pkcs8_diverges :
    certKeyOutcome (.block "" "PRIVATE KEY" (.pkcs8Der (.ec 7)) "") =
      some ("ec", some (.pkcs8Der (.ec 7)), some (.ec 7)) ∧
    csrKeyOutcome (.block "" "PRIVATE KEY" (.pkcs8Der (.ec 7)) "") = none ∧
    certKeyOutcome (.block "" "PRIVATE KEY" (.pkcs8Der (.ec 7)) "") ≠
      csrKeyOutcome (.block "" "PRIVATE KEY" (.pkcs8Der (.ec 7)) "") :=
  ⟨rfl, rfl, by decide⟩

/-- C6 (amended): the two key handlers agree (same inferred key type, key
bytes, signer, and success/failure) on key texts whose block label is
exactly `EC PRIVATE KEY` or `RSA PRIVATE KEY`; they diverge on PKCS#8:
`ToParsedCertBundle` handles the `PRIVATE KEY` label while
`ToParsedCSRBundle` rejects it unless the bytes trial-decode, and the
write-back of the inferred type onto the input also differs. -/
theorem C6_labelled_key_handling_agrees (lead trail : String) (label : String)
    (bytes : Bytes)
    (hl : label = "EC PRIVATE KEY" ∨ label = "RSA PRIVATE KEY") :
    certKeyOutcome (.block lead label bytes trail) =
      csrKeyOutcome (.block lead label bytes trail) := by
  cases hl with
  | inl h =>
    subst h
    unfold certKeyOutcome csrKeyOutcome
    unfold CertBundle.ToParsedCertBundle CSRBundle.ToParsedCSRBundle
    unfold certKeyPhase csrKeyPhase
    simp only [PemStr.isNonempty, pemDecode, if_true]
    rw [show trimSpace "EC PRIVATE KEY" = "EC PRIVATE KEY" from rfl]
    unfold ParsedCertBundle.getSigner ParsedCSRBundle.getSigner
    by_cases hb : bytes.isEmptyBytes
    · simp [hb]
    · simp only [hb, Bool.false_eq_true, if_false]
      cases hp : parseECPrivateKey bytes <;>
        simp [hp, certCertPhase, certChainPhase, certSerialPhase,
          PemStr.isNonempty, ParsedCertBundle.empty, ParsedCSRBundle.empty]
  | inr h =>
    subst h
    unfold certKeyOutcome csrKeyOutcome
    unfold CertBundle.ToParsedCertBundle CSRBundle.ToParsedCSRBundle
    unfold certKeyPhase csrKeyPhase
    simp only [PemStr.isNonempty, pemDecode, if_true]
    rw [show trimSpace "RSA PRIVATE KEY" = "RSA PRIVATE KEY" from rfl]
    unfold ParsedCertBundle.getSigner ParsedCSRBundle.getSigner
    by_cases hb : bytes.isEmptyBytes
    · simp [hb]
    · simp only [hb, Bool.false_eq_true, if_false]
      cases hp : parsePKCS1PrivateKey bytes <;>
        simp [hp, certCertPhase, certChainPhase, certSerialPhase,
          PemStr.isNonempty, ParsedCertBundle.empty, ParsedCSRBundle.empty]

/-- C6 witness: the amended agreement at a concrete SEC1 EC key text. -/
theorem C6_witness :
    certKeyOutcome (.block "" "EC PRIVATE KEY" (.ecKeyDer 3) "") =
      csrKeyOutcome (.block "" "EC PRIVATE KEY" (.ecKeyDer 3) "") :=
  C6_labelled_key_handling_agrees "" "" "EC PRIVATE KEY" (.ecKeyDer 3) (.inl rfl)

/-
Claim C9.  Where `ToParsedCertBundle` populates the parsed bundle's
serial-number field.
-/

/-- The key phase touches none of the certificate/chain/serial fields of
the accumulated result. -/
theorem certKeyPhase_result_preserves (c : CertBundle) (r r1 : ParsedCertBundle)
    (c1 : CertBundle) (h : certKeyPhase c r = (.ok r1, c1)) :
    r1.certificateBytes = r.certificateBytes ∧ r1.certificate = r.certificate ∧
    r1.caChain = r.caChain ∧ r1.serialNumber = r.serialNumber := by
  unfold certKeyPhase at h
  split at h
  · cases hd : pemDecode c.privateKey with
    | none => rw [hd] at h; simp at h
    | some lb =>
      rw [hd] at h
      dsimp only at h
      split at h <;> (repeat' split at h) <;>
        simp only [Prod.mk.injEq, Except.ok.injEq, reduceCtorEq, false_and] at h <;>
        obtain ⟨h1, -⟩ := h <;> subst h1 <;> simp
  · simp only [Prod.mk.injEq, Except.ok.injEq] at h
    obtain ⟨h1, -⟩ := h
    subst h1
    simp

/-- C9 (amended): the parsed bundle's serial-number field is populated only
in the legacy issuing-CA fallback path (empty `ca_chain`, non-empty
`issuing_ca`), where it receives the LEAF certificate's serial reference;
when the chain comes from `ca_chain`, or there is no chain at all, the
field is left nil. -/
theorem C9_serial_only_in_legacy_path (c : CertBundle) (p : ParsedCertBundle)
    (c' : CertBundle) (h : c.ToParsedCertBundle = (.ok p, c')) :
    (c.caChain ≠ [] → p.serialNumber = none) ∧
    (c.caChain = [] → c.issuingCA = .empty → p.serialNumber = none) ∧
    (c.caChain = [] → c.issuingCA ≠ .empty →
      ∃ leaf, p.certificate = some leaf ∧
        p.serialNumber = some leaf.SerialNumber) := by
  unfold CertBundle.ToParsedCertBundle at h
  cases hkp : certKeyPhase c ParsedCertBundle.empty with
  | mk res1 c1 =>
    rw [hkp] at h
    have hbp := certKeyPhase_bundle_preserves c ParsedCertBundle.empty
    rw [hkp] at hbp
    dsimp only at hbp
    obtain ⟨hbCert, hbIss, hbChain, hbPk, hbSer⟩ := hbp
    cases res1 with
    | error e => simp at h
    | ok r1 =>
      have hrp := certKeyPhase_result_preserves c ParsedCertBundle.empty r1 c1 hkp
      obtain ⟨hrCB, hrCert, hrChain, hrSer⟩ := hrp
      dsimp only at h
      cases hcc : certCertPhase c1 r1 0 with
      | error e => rw [hcc] at h; simp at h
      | ok rn =>
        obtain ⟨r2, n2⟩ := rn
        obtain ⟨-, -, -, -, hp2Chain, hp2Ser⟩ := certCertPhase_preserves hcc
        rw [hcc] at h
        dsimp only at h
        cases hch : certChainPhase c1 r2 n2 with
        | err e => rw [hch] at h; simp at h
        | panic => rw [hch] at h; simp at h
        | ok r3 =>
          rw [hch] at h
          dsimp only at h
          cases hsp : certSerialPhase c1 r3 with
          | err e => rw [hsp] at h; simp at h
          | panic => rw [hsp] at h; simp at h
          | ok c2 =>
            rw [hsp] at h
            simp only [Prod.mk.injEq, Res.ok.injEq] at h
            obtain ⟨h1, -⟩ := h
            subst h1
            unfold certChainPhase at hch
            refine ⟨?_, ?_, ?_⟩
            · intro hchain
              rw [if_pos (by (cases hcn : c.caChain with
                | nil => exact absurd hcn hchain
                | cons a b => rw [hbChain, hcn]; simp))] at hch
              cases hl : parseChainLoop c1.caChain n2 with
              | error e => rw [hl] at hch; simp at hch
              | ok bn =>
                rw [hl] at hch
                simp only [Res.ok.injEq] at hch
                subst hch
                simp [hp2Ser, hrSer, ParsedCertBundle.empty]
            · intro hchain hissuing
              rw [if_neg (by rw [hbChain, hchain]; simp)] at hch
              rw [if_neg (by rw [hbIss, hissuing]; simp [PemStr.isNonempty])] at hch
              simp only [Res.ok.injEq] at hch
              subst hch
              simp [hp2Ser, hrSer, ParsedCertBundle.empty]
            · intro hchain hissuing
              rw [if_neg (by rw [hbChain, hchain]; simp)] at hch
              have hne : c1.issuingCA.isNonempty = true := by
                rw [hbIss]
                cases hi : c.issuingCA with
                | empty => exact absurd hi hissuing
                | garbage => rfl
                | block a b cbytes d => rfl
              rw [if_pos hne] at hch
              cases hd : pemDecode c1.issuingCA with
              | none => rw [hd] at hch; simp at hch
              | some lb =>
                rw [hd] at hch
                dsimp only at hch
                cases hpc : parseCertificate lb.2 n2 with
                | none => rw [hpc] at hch; simp at hch
                | some certn =>
                  rw [hpc] at hch
                  dsimp only at hch
                  cases hrc : r2.certificate with
                  | none => rw [hrc] at hch; simp at hch
                  | some leaf =>
                    rw [hrc] at hch
                    simp only [Res.ok.injEq] at hch
                    subst hch
                    exact ⟨leaf, by simp [hrc], by simp⟩

/-- The C9 counterexample input: a bundle containing a certificate, no
chain, no legacy issuing CA. -/
def c9Bundle : CertBundle :=
  ⟨"", .block "" "CERTIFICATE" (.certDer c1LeafData) "", .empty, [], .empty, ""⟩

/-- C9 counterexample: parsing a bundle that contains a certificate (and no
legacy issuing-CA field) succeeds but leaves the parsed bundle's
serial-number field nil, not populated with the certificate's serial. -/
theorem C9_counterexample_serial_left_nil :
    (c9Bundle.ToParsedCertBundle).1 = .ok (resultBundle (c9Bundle.ToParsedCertBundle).1) ∧
    (resultBundle (c9Bundle.ToParsedCertBundle).1).certificate ≠ none ∧
    (resultBundle (c9Bundle.ToParsedCertBundle).1).serialNumber = none :=
  ⟨rfl, by decide, rfl⟩

/-- The C9 witness input: a certificate together with a legacy issuing-CA
field and no `ca_chain`, the one path that does populate the serial. -/
def c9wBundle : CertBundle :=
  ⟨"", .block "" "CERTIFICATE" (.certDer c1LeafData) "",
   .block "" "CERTIFICATE" (.certDer c1RootData) "", [], .empty, ""⟩

/-- C9 witness: the amended theorem applied at the legacy-path bundle. -/
theorem C9_witness :
    ∃ leaf, (resultBundle (c9wBundle.ToParsedCertBundle).1).certificate = some leaf ∧
      (resultBundle (c9wBundle.ToParsedCertBundle).1).serialNumber =
        some leaf.SerialNumber :=
  (C9_serial_only_in_legacy_path c9wBundle
    (resultBundle (c9wBundle.ToParsedCertBundle).1)
    ((c9wBundle.ToParsedCertBundle).2) rfl).2.2 rfl (by decide)

/-
Claim C10.  Which calls write the inferred key type back onto their input.
-/

/-- `getPKCS8Type` only ever succeeds with `ec` or `rsa`. -/
theorem getPKCS8Type_ok (bs : Bytes) (t : String) (h : getPKCS8Type bs = .ok t) :
    t = "ec" ∨ t = "rsa" := by
  unfold getPKCS8Type at h
  cases hp : parsePKCS8PrivateKey bs with
  | none => rw [hp] at h; simp at h
  | some alg =>
    rw [hp] at h
    cases alg with
    | rsa d => simp at h; exact Or.inr h.symm
    | ec d => simp at h; exact Or.inl h.symm
    | other tag => simp at h

/-- The key-type tag `ToParsedCertBundle` leaves on its input is exactly the
one the key phase wrote, whatever happens afterwards. -/
theorem ToParsedCertBundle_bundle_type (c : CertBundle) :
    (c.ToParsedCertBundle).2.privateKeyType =
      ((certKeyPhase c ParsedCertBundle.empty).2).privateKeyType := by
  cases hkp : certKeyPhase c ParsedCertBundle.empty with
  | mk res c1 =>
    cases res with
    | error e => rw [ToParsedCertBundle_keyphase_err c e c1 hkp]
    | ok r1 => exact (ToParsedCertBundle_keyphase_ok c r1 c1 hkp).1

/-- The key phase of `ToParsedCertBundle` writes the inferred type onto the
string bundle as soon as the block label is classified, in every labelled
branch. -/
theorem certKeyPhase_writes_type (c : CertBundle) (r : ParsedCertBundle)
    (lead label trail : String) (bytes : Bytes)
    (hkey : c.privateKey = .block lead label bytes trail) :
    (trimSpace label = "EC PRIVATE KEY" →
      ((certKeyPhase c r).2).privateKeyType = "ec") ∧
    (trimSpace label = "RSA PRIVATE KEY" →
      ((certKeyPhase c r).2).privateKeyType = "rsa") ∧
    (∀ t, trimSpace label = "PRIVATE KEY" → getPKCS8Type bytes = .ok t →
      ((certKeyPhase c r).2).privateKeyType = t) := by
  refine ⟨?_, ?_, ?_⟩
  · intro hl
    unfold certKeyPhase
    rw [hkey]
    simp only [PemStr.isNonempty, if_true, pemDecode]
    rw [hl]
    split <;> (repeat' split) <;> simp_all
  · intro hl
    unfold certKeyPhase
    rw [hkey]
    simp only [PemStr.isNonempty, if_true, pemDecode]
    rw [hl]
    split <;> (repeat' split) <;> simp_all
  · intro t hl hgt
    unfold certKeyPhase
    rw [hkey]
    simp only [PemStr.isNonempty, if_true, pemDecode]
    rw [hl]
    rcases getPKCS8Type_ok bytes t hgt with rfl | rfl <;>
      split <;> (repeat' split) <;> simp_all

/-- The bundle returned by `ToParsedCSRBundle` is exactly the one its key
phase left behind: the CSR phase never touches the receiver. -/
theorem ToParsedCSRBundle_bundle (s : CSRBundle) :
    (s.ToParsedCSRBundle).2 = (csrKeyPhase s ParsedCSRBundle.empty).2 := by
  unfold CSRBundle.ToParsedCSRBundle
  cases hkp : csrKeyPhase s ParsedCSRBundle.empty with
  | mk res c1 =>
    cases res with
    | error e => rfl
    | ok r1 =>
      dsimp only
      split
      · split <;> (repeat' split) <;> rfl
      · rfl

/-- C10 (amended): `ToParsedCertBundle` writes the inferred key type onto
the caller's input bundle as soon as the key block is classified, in every
labelled branch and whatever the rest of the call does (so the input is
mutated even on calls that subsequently fail); `ToParsedCSRBundle`,
however, writes the type back only in its untagged trial-decode branch:
keys labelled `EC PRIVATE KEY` or `RSA PRIVATE KEY` leave its input
entirely untouched. -/
theorem C10_write_back_asymmetry :
    (∀ (c : CertBundle) (lead label trail : String) (bytes : Bytes),
      c.privateKey = .block lead label bytes trail →
      ((trimSpace label = "EC PRIVATE KEY" →
          (c.ToParsedCertBundle).2.privateKeyType = "ec") ∧
       (trimSpace label = "RSA PRIVATE KEY" →
          (c.ToParsedCertBundle).2.privateKeyType = "rsa") ∧
       (∀ t, trimSpace label = "PRIVATE KEY" → getPKCS8Type bytes = .ok t →
          (c.ToParsedCertBundle).2.privateKeyType = t))) ∧
    (∀ (s : CSRBundle) (lead label trail : String) (bytes : Bytes),
      s.privateKey = .block lead label bytes trail →
      ((label = "EC PRIVATE KEY" ∨ label = "RSA PRIVATE KEY" →
          (s.ToParsedCSRBundle).2 = s) ∧
       (label ≠ "EC PRIVATE KEY" → label ≠ "RSA PRIVATE KEY" →
         (∀ k, parseECPrivateKey bytes = some k →
            (s.ToParsedCSRBundle).2.privateKeyType = "ec") ∧
         (parseECPrivateKey bytes = none →
          ∀ k, parsePKCS1PrivateKey bytes = some k →
            (s.ToParsedCSRBundle).2.privateKeyType = "rsa")))) := by
  constructor
  · intro c lead label trail bytes hkey
    have hw := certKeyPhase_writes_type c ParsedCertBundle.empty lead label trail bytes hkey
    rw [ToParsedCertBundle_bundle_type c]
    exact hw
  · intro s lead label trail bytes hkey
    constructor
    · intro hl
      rw [ToParsedCSRBundle_bundle]
      unfold csrKeyPhase
      rw [hkey]
      simp only [PemStr.isNonempty, if_true, pemDecode]
      cases hl with
      | inl h =>
        rw [h]
        split
        · simp_all
        · rename_i step2 r c' heq
          simp at heq
          obtain ⟨h1, h2⟩ := heq
          subst h1
          subst h2
          split <;> rfl
      | inr h =>
        rw [h]
        split
        · simp_all
        · rename_i step2 r c' heq
          simp at heq
          obtain ⟨h1, h2⟩ := heq
          subst h1
          subst h2
          split <;> rfl
    · intro hne1 hne2
      constructor
      · intro k hpe
        rw [ToParsedCSRBundle_bundle]
        unfold csrKeyPhase
        rw [hkey]
        simp only [PemStr.isNonempty, if_true, pemDecode]
        split
        · simp_all
        · rename_i step2 r c' heq
          simp [hne1, hne2, hpe] at heq
          obtain ⟨h1, h2⟩ := heq
          subst h1
          subst h2
          split <;> rfl
      · intro hpe k hpk
        rw [ToParsedCSRBundle_bundle]
        unfold csrKeyPhase
        rw [hkey]
        simp only [PemStr.isNonempty, if_true, pemDecode]
        split
        · simp_all
        · rename_i step2 r c' heq
          simp [hne1, hne2, hpe, hpk] at heq
          obtain ⟨h1, h2⟩ := heq
          subst h1
          subst h2
          split <;> rfl

/-- Whether a `ToParsedCSRBundle` call returned a value. -/
def csrResOk : Res ParsedCSRBundle → Bool
  | .ok _ => true
  | _ => false

/-- The C10 counterexample input: a CSR bundle whose key is labelled
`EC PRIVATE KEY` and whose type tag is empty. -/
def c10Bad : CSRBundle := ⟨"", .empty, .block "" "EC PRIVATE KEY" (.ecKeyDer 3) ""⟩

/-- C10 counterexample: `ToParsedCSRBundle` classifies the labelled EC key
and succeeds, yet the input bundle's key-type tag is NOT written (it stays
empty instead of becoming `ec`), refuting the claim that both functions
write the inferred type back upon classification. -/
theorem C10_counterexample_csr_label_not_written :
    csrResOk (c10Bad.ToParsedCSRBundle).1 = true ∧
    (c10Bad.ToParsedCSRBundle).2.privateKeyType = "" ∧
    (c10Bad.ToParsedCSRBundle).2.privateKeyType ≠ "ec" :=
  ⟨rfl, rfl, by decide⟩

/-
Claim C3.  Round-tripping a string bundle through `ToParsedCertBundle` and
`ToCertBundle`.
-/

/-- A PEM text that, if it is a block at all, carries one of the three
recognized private-key labels (pre-trimmed). -/
def keyTextCanonical : PemStr → Bool
  | .block _ label _ _ =>
    label == "EC PRIVATE KEY" || label == "RSA PRIVATE KEY" || label == "PRIVATE KEY"
  | _ => true

/-- A PEM text that, if it is a block at all, carries the `CERTIFICATE`
label. -/
def certTextCanonical : PemStr → Bool
  | .block _ label _ _ => label == "CERTIFICATE"
  | _ => true

/-- An empty key field passes through the key phase unchanged. -/
theorem certKeyPhase_empty (c : CertBundle) (r : ParsedCertBundle)
    (h : c.privateKey = .empty) : certKeyPhase c r = (.ok r, c) := by
  unfold certKeyPhase
  rw [h]
  rfl

/-- `getSigner` rejects empty key bytes whatever the format. -/
theorem getSigner_empty_bytes (q : ParsedCertBundle) (bs : Bytes)
    (hq : q.privateKeyBytes = some bs) (hb : bs.isEmptyBytes = true) :
    q.getSigner = .error .noPrivateKeyInfo := by
  unfold ParsedCertBundle.getSigner
  rw [hq]
  simp [hb]

/-- A successful key phase on a block-valued key field records the block's
payload and trimmed label, and the payload is non-empty. -/
theorem certKeyPhase_block_ok (c : CertBundle) (r r1 : ParsedCertBundle)
    (c1 : CertBundle) (lead l trail : String) (bytes : Bytes)
    (hkey : c.privateKey = .block lead l bytes trail)
    (h : certKeyPhase c r = (.ok r1, c1)) :
    r1.privateKeyBytes = some bytes ∧ r1.privateKeyFormat = trimSpace l ∧
    bytes.isEmptyBytes = false := by
  have hic : bytes.isEmptyBytes = false := by
    by_contra hby
    simp only [Bool.not_eq_false] at hby
    have hsig : ∀ (q : ParsedCertBundle), q.privateKeyBytes = some bytes →
        q.getSigner = .error .noPrivateKeyInfo :=
      fun q hq => getSigner_empty_bytes q bytes hq hby
    unfold certKeyPhase at h
    rw [hkey] at h
    simp only [PemStr.isNonempty, if_true, pemDecode] at h
    split at h <;> (repeat' split at h) <;>
      simp_all [hsig]
  refine ⟨?_, ?_, hic⟩ <;>
  · unfold certKeyPhase at h
    rw [hkey] at h
    simp only [PemStr.isNonempty, if_true, pemDecode] at h
    split at h <;> (repeat' split at h) <;>
      simp only [Prod.mk.injEq, Except.ok.injEq, reduceCtorEq, false_and] at h <;>
      obtain ⟨h1, -⟩ := h <;> subst h1 <;> rfl

/-- An empty certificate field passes through the certificate phase
unchanged. -/
theorem certCertPhase_empty (c : CertBundle) (r : ParsedCertBundle) (n : Nat)
    (h : c.certificate = .empty) : certCertPhase c r n = .ok (r, n) := by
  unfold certCertPhase
  rw [h]
  rfl

/-- A successful certificate phase on a block-valued certificate field
records the payload, which must be certificate DER, decodes it with a fresh
serial pointer, and advances the allocation counter. -/
theorem certCertPhase_block_ok (c : CertBundle) (r r2 : ParsedCertBundle)
    (n n2 : Nat) (lead l trail : String) (bytes : Bytes)
    (hcert : c.certificate = .block lead l bytes trail)
    (h : certCertPhase c r n = .ok (r2, n2)) :
    ∃ d, bytes = .certDer d ∧
      r2 = { r with certificateBytes := some bytes,
                    certificate := some ⟨d, n⟩ } ∧ n2 = n + 1 := by
  unfold certCertPhase at h
  rw [hcert] at h
  simp only [PemStr.isNonempty, if_true, pemDecode] at h
  cases hb : bytes with
  | certDer d =>
    subst hb
    simp only [parseCertificate] at h
    simp only [Except.ok.injEq, Prod.mk.injEq] at h
    exact ⟨d, rfl, h.1.symm, h.2.symm⟩
  | raw data => subst hb; simp [parseCertificate] at h
  | csrDer d => subst hb; simp [parseCertificate] at h
  | ecKeyDer d => subst hb; simp [parseCertificate] at h
  | pkcs1Der d => subst hb; simp [parseCertificate] at h
  | pkcs8Der alg => subst hb; simp [parseCertificate] at h

/-- A successful chain loop yields one block per input text, keeping each
text's payload; re-encoding each block as a trimmed `CERTIFICATE` PEM text
is whitespace-equal to the input text whenever the input's label was
`CERTIFICATE`. -/
theorem parseChainLoop_spec (ss : List PemStr) :
    ∀ (n : Nat) (blocks : List CertBlock) (n' : Nat),
    parseChainLoop ss n = .ok (blocks, n') →
    (∀ s ∈ ss, certTextCanonical s = true) →
    blocks.length = ss.length ∧
    ((blocks.map fun cb => pemEncodeTrimmed "CERTIFICATE" cb.bytes).zip ss).all
      (fun pr => pemTrimEq pr.1 pr.2) = true := by
  induction ss with
  | nil =>
    intro n blocks n' h _
    unfold parseChainLoop at h
    simp only [Except.ok.injEq, Prod.mk.injEq] at h
    obtain ⟨h1, -⟩ := h
    subst h1
    exact ⟨rfl, rfl⟩
  | cons s rest ih =>
    intro n blocks n' h hcanon
    unfold parseChainLoop at h
    cases hs : s with
    | empty => rw [hs] at h; simp [pemDecode] at h
    | garbage => rw [hs] at h; simp [pemDecode] at h
    | block lead label bytes trail =>
      rw [hs] at h
      simp only [pemDecode] at h
      cases hp : parseCertificate bytes n with
      | none => rw [hp] at h; simp at h
      | some cn =>
        rw [hp] at h
        obtain ⟨cert, nn⟩ := cn
        dsimp only at h
        cases hl : parseChainLoop rest nn with
        | error e => rw [hl] at h; simp at h
        | ok bn =>
          rw [hl] at h
          obtain ⟨blocks', n''⟩ := bn
          simp only [Except.ok.injEq, Prod.mk.injEq] at h
          obtain ⟨h1, -⟩ := h
          subst h1
          have hlab : label = "CERTIFICATE" := by
            have := hcanon s (by simp)
            rw [hs] at this
            simpa [certTextCanonical] using this
          obtain ⟨ihlen, ihall⟩ := ih nn blocks' n'' hl
            (fun x hx => hcanon x (by simp [hx]))
          refine ⟨by simp [ihlen], ?_⟩
          subst hlab
          simpa [pemEncodeTrimmed, pemTrimEq, PemStr.strip] using ihall

/-- With no chain and no legacy issuing CA, the chain phase is the
identity. -/
theorem certChainPhase_none (c : CertBundle) (r : ParsedCertBundle) (n : Nat)
    (h1 : c.caChain = []) (h2 : c.issuingCA = .empty) :
    certChainPhase c r n = .ok r := by
  unfold certChainPhase
  rw [h1, h2]
  rfl

/-- A successful chain phase on a non-empty `ca_chain` comes from a
successful chain loop whose blocks it installs. -/
theorem certChainPhase_chain_inv (c : CertBundle) (r r' : ParsedCertBundle)
    (n : Nat) (hne : c.caChain ≠ []) (h : certChainPhase c r n = .ok r') :
    ∃ blocks n', parseChainLoop c.caChain n = .ok (blocks, n') ∧
      r' = { r with caChain := blocks } := by
  unfold certChainPhase at h
  rw [if_pos (by cases hc : c.caChain with
    | nil => exact absurd hc hne
    | cons a b => simp)] at h
  cases hl : parseChainLoop c.caChain n with
  | error e => rw [hl] at h; simp at h
  | ok bn =>
    obtain ⟨blocks, n'⟩ := bn
    rw [hl] at h
    simp only [Res.ok.injEq] at h
    exact ⟨blocks, n', rfl, h.symm⟩

/-- C3 (amended): round-tripping a string bundle through
`ToParsedCertBundle` and back through `ToCertBundle` restores the
certificate, chain, and key PEM texts up to leading/trailing whitespace,
and the serial number of the (mutated) input, PROVIDED the certificate and
chain blocks carry the `CERTIFICATE` label, the key block carries one of
the three recognized key labels exactly, the chain is given in the
`ca_chain` field (the legacy issuing-CA field is unused), and the input's
serial field is empty or already the certificate's colon-hex serial.  (As
stated, without these provisos, the claim fails: see the counterexample.) -/
theorem C3_round_trip (b b' : CertBundle) (p : ParsedCertBundle)
    (hkeyc : keyTextCanonical b.privateKey = true)
    (hcertc : certTextCanonical b.certificate = true)
    (hchainc : ∀ s ∈ b.caChain, certTextCanonical s = true)
    (hlegacy : b.caChain = [] → b.issuingCA = .empty)
    (hserial : b.serialNumber = "" ∨
      ∃ lead trail d, b.certificate = .block lead "CERTIFICATE" (.certDer d) trail ∧
        b.serialNumber = serialHex d.serialVal)
    (h : b.ToParsedCertBundle = (.ok p, b')) :
    ∃ out, p.ToCertBundle = .ok out ∧
      pemTrimEq out.certificate b.certificate = true ∧
      out.caChain.length = b.caChain.length ∧
      ((out.caChain.zip b.caChain).all fun pr => pemTrimEq pr.1 pr.2) = true ∧
      pemTrimEq out.privateKey b.privateKey = true ∧
      out.serialNumber = b'.serialNumber := by
  -- Phase decomposition of the successful parse.
  unfold CertBundle.ToParsedCertBundle at h
  cases hkp : certKeyPhase b ParsedCertBundle.empty with
  | mk res1 c1 =>
    rw [hkp] at h
    have hbp := certKeyPhase_bundle_preserves b ParsedCertBundle.empty
    rw [hkp] at hbp
    dsimp only at hbp
    obtain ⟨hbCert, hbIss, hbChain, hbPk, hbSer⟩ := hbp
    cases res1 with
    | error e => simp at h
    | ok r1 =>
      obtain ⟨hrCB, hrCert, hrChain, hrSer⟩ :=
        certKeyPhase_result_preserves b ParsedCertBundle.empty r1 c1 hkp
      dsimp only at h
      cases hcc : certCertPhase c1 r1 0 with
      | error e => rw [hcc] at h; simp at h
      | ok rn =>
        obtain ⟨r2, n2⟩ := rn
        obtain ⟨hc2t, hc2f, hc2b, hc2k, hc2ch, hc2s⟩ := certCertPhase_preserves hcc
        rw [hcc] at h
        dsimp only at h
        cases hch : certChainPhase c1 r2 n2 with
        | err e => rw [hch] at h; simp at h
        | panic => rw [hch] at h; simp at h
        | ok r3 =>
          obtain ⟨hc3t, hc3f, hc3b, hc3k, hc3cb, hc3c⟩ := certChainPhase_preserves hch
          rw [hch] at h
          dsimp only at h
          cases hsp : certSerialPhase c1 r3 with
          | err e => rw [hsp] at h; simp at h
          | panic => rw [hsp] at h; simp at h
          | ok c2 =>
            rw [hsp] at h
            simp only [Prod.mk.injEq, Res.ok.injEq] at h
            obtain ⟨hp3, hc2eq⟩ := h
            symm at hp3
            subst hp3
            symm at hc2eq
            subst hc2eq
            -- (A) key facts
            have hA : (p.privateKeyBytes = none ∧ b.privateKey = .empty) ∨
                ∃ lead l trail bytes, b.privateKey = .block lead l bytes trail ∧
                  (l = "EC PRIVATE KEY" ∨ l = "RSA PRIVATE KEY" ∨ l = "PRIVATE KEY") ∧
                  p.privateKeyBytes = some bytes ∧ p.privateKeyFormat = l ∧
                  bytes.isEmptyBytes = false := by
              cases hk : b.privateKey with
              | empty =>
                left
                rw [certKeyPhase_empty b ParsedCertBundle.empty hk] at hkp
                simp only [Prod.mk.injEq, Except.ok.injEq] at hkp
                obtain ⟨h1, -⟩ := hkp
                subst h1
                exact ⟨by rw [hc3b, hc2b]; exact hrCB, rfl⟩
              | garbage =>
                exfalso
                unfold certKeyPhase at hkp
                rw [hk] at hkp
                simp [PemStr.isNonempty, pemDecode] at hkp
              | block lead l bytes trail =>
                right
                have hl3 : l = "EC PRIVATE KEY" ∨ l = "RSA PRIVATE KEY" ∨ l = "PRIVATE KEY" := by
                  have hx := hkeyc
                  rw [hk] at hx
                  have hx2 : (l = "EC PRIVATE KEY" ∨ l = "RSA PRIVATE KEY") ∨ l = "PRIVATE KEY" := by
                    simpa [keyTextCanonical] using hx
                  tauto
                obtain ⟨hkb, hkf, hke⟩ :=
                  certKeyPhase_block_ok b ParsedCertBundle.empty r1 c1 lead l trail bytes hk hkp
                have htr : trimSpace l = l := by
                  rcases hl3 with rfl | rfl | rfl <;> rfl
                exact ⟨lead, l, trail, bytes, rfl, hl3,
                  by rw [hc3b, hc2b, hkb],
                  by rw [hc3f, hc2f, hkf, htr], hke⟩
            -- (B) certificate facts
            have hB : (p.certificateBytes = none ∧ p.certificate = none ∧
                  b.certificate = .empty) ∨
                ∃ lead trail d, b.certificate = .block lead "CERTIFICATE" (.certDer d) trail ∧
                  p.certificateBytes = some (.certDer d) ∧ p.certificate = some ⟨d, 0⟩ := by
              cases hc : b.certificate with
              | empty =>
                left
                rw [certCertPhase_empty c1 r1 0 (by rw [hbCert, hc])] at hcc
                simp only [Except.ok.injEq, Prod.mk.injEq] at hcc
                obtain ⟨h1, -⟩ := hcc
                subst h1
                exact ⟨by rw [hc3cb]; exact hrCB, by rw [hc3c]; exact hrCert, rfl⟩
              | garbage =>
                exfalso
                unfold certCertPhase at hcc
                rw [hbCert, hc] at hcc
                simp [PemStr.isNonempty, pemDecode] at hcc
              | block lead l bytes trail =>
                right
                have hlc : l = "CERTIFICATE" := by
                  have hx := hcertc
                  rw [hc] at hx
                  simpa [certTextCanonical] using hx
                subst hlc
                obtain ⟨d, hd, hr2, -⟩ :=
                  certCertPhase_block_ok c1 r1 r2 0 n2 lead "CERTIFICATE" trail bytes
                    (by rw [hbCert, hc]) hcc
                subst hd
                refine ⟨lead, trail, d, rfl, ?_, ?_⟩
                · rw [hc3cb, hr2]
                · rw [hc3c, hr2]
            -- (C) chain facts
            have hC : p.caChain.length = b.caChain.length ∧
                (((p.caChain.map fun cb => pemEncodeTrimmed "CERTIFICATE" cb.bytes).zip
                    b.caChain).all fun pr => pemTrimEq pr.1 pr.2) = true := by
              cases hcn : b.caChain with
              | nil =>
                rw [certChainPhase_none c1 r2 n2 (by rw [hbChain, hcn])
                  (by rw [hbIss, hlegacy hcn])] at hch
                simp only [Res.ok.injEq] at hch
                subst hch
                rw [hc2ch, hrChain]
                exact ⟨rfl, rfl⟩
              | cons s0 srest =>
                obtain ⟨blocks, n', hloop, hr3⟩ :=
                  certChainPhase_chain_inv c1 r2 p n2
                    (by rw [hbChain, hcn]; simp) hch
                rw [hbChain] at hloop
                obtain ⟨hlen, hall⟩ := parseChainLoop_spec b.caChain n2 blocks n' hloop hchainc
                subst hr3
                rw [hcn] at hlen hall
                exact ⟨by simpa using hlen, by simpa using hall⟩
            -- (D) serial fact
            have hD : b'.serialNumber =
                (match p.certificate with
                 | some cert => serialHex cert.data.serialVal
                 | none => "") := by
              unfold certSerialPhase at hsp
              rcases hB with ⟨hpb, hpc, hce⟩ | ⟨lead, trail, d, hcb, hpb, hpc⟩
              · rw [hpc]
                rw [if_neg (by rw [hbCert, hce]; simp [PemStr.isNonempty])] at hsp
                simp only [Res.ok.injEq] at hsp
                subst hsp
                rw [hbSer]
                rcases hserial with hs0 | ⟨lead, trail, d, hcb, -⟩
                · exact hs0
                · rw [hce] at hcb; exact absurd hcb (by simp)
              · rw [hpc]
                dsimp only
                by_cases hs0 : b.serialNumber = ""
                · rw [if_pos (by rw [hbSer, hbCert, hcb]; exact ⟨hs0, rfl⟩)] at hsp
                  rw [hpc] at hsp
                  simp only [Res.ok.injEq] at hsp
                  subst hsp
                  rfl
                · rw [if_neg (by rw [hbSer, hbCert]; exact fun hand => hs0 hand.1)] at hsp
                  simp only [Res.ok.injEq] at hsp
                  subst hsp
                  rw [hbSer]
                  rcases hserial with hs1 | ⟨lead2, trail2, d2, hcb2, hs2⟩
                  · exact absurd hs1 hs0
                  · rw [hcb] at hcb2
                    have hd2 : d2 = d := by
                      have := hcb2
                      simp only [PemStr.block.injEq, Bytes.certDer.injEq] at this
                      exact this.2.2.1.symm
                    subst hd2
                    exact hs2
            -- Assemble the output of ToCertBundle.
            unfold ParsedCertBundle.ToCertBundle
            rcases hA with ⟨hpkb, hkeq⟩ | ⟨leadK, lK, trailK, bytesK, hkeq, hl3, hpkb, hpkf, hpke⟩
            · rw [hpkb]
              dsimp only
              refine ⟨_, rfl, ?_, ?_, ?_, ?_, ?_⟩
              · rcases hB with ⟨hpb, hpc, hce⟩ | ⟨lead, trail, d, hcb, hpb, hpc⟩
                · rw [hpb, hce]; rfl
                · rw [hpb, hcb]
                  simp [pemTrimEq, pemEncodeTrimmed, PemStr.strip, Bytes.isEmptyBytes]
              · simpa using hC.1
              · simpa using hC.2
              · rw [hkeq]; rfl
              · rw [hD]
            · rw [hpkb]
              dsimp only
              rw [if_neg (by simpa using hpke)]
              have hlne : ¬ p.privateKeyFormat = "" := by
                rw [hpkf]; rcases hl3 with rfl | rfl | rfl <;> simp
              rw [if_neg hlne]
              refine ⟨_, rfl, ?_, ?_, ?_, ?_, ?_⟩
              · rcases hB with ⟨hpb, hpc, hce⟩ | ⟨lead, trail, d, hcb, hpb, hpc⟩
                · rw [hpb, hce]; rfl
                · rw [hpb, hcb]
                  simp [pemTrimEq, pemEncodeTrimmed, PemStr.strip, Bytes.isEmptyBytes]
              · simpa using hC.1
              · simpa using hC.2
              · rw [hkeq, hpkf]
                simp [pemTrimEq, pemEncodeTrimmed, PemStr.strip]
              · rw [hD]

/-- The certificate PEM text recovered by a full round trip, when both
conversions succeed. -/
def roundTripCert (b : CertBundle) : Option PemStr :=
  match (b.ToParsedCertBundle).1 with
  | .ok p =>
    match p.ToCertBundle with
    | .ok out => some out.certificate
    | .error _ => none
  | _ => none

/-- The C3 counterexample input: its certificate block is labelled `FOO`
but carries valid certificate DER, so parsing succeeds. -/
def c3Bad : CertBundle :=
  ⟨"", .block "" "FOO" (.certDer c1LeafData) "", .empty, [], .empty, ""⟩

/-- C3 counterexample: `ToParsedCertBundle` accepts a certificate block
whose PEM label is `FOO` (the label is never checked), and the round trip
re-encodes it under the `CERTIFICATE` label, so the recovered certificate
text is NOT byte-identical to the input up to whitespace. -/
theorem C3_counterexample_label_rewritten :
    roundTripCert c3Bad =
      some (.block "" "CERTIFICATE" (.certDer c1LeafData) "") ∧
    pemTrimEq (.block "" "CERTIFICATE" (.certDer c1LeafData) "")
      c3Bad.certificate = false :=
  ⟨rfl, by decide⟩

/-- The C3 witness input: canonical labels throughout, chain in `ca_chain`,
empty serial. -/
def c3wBundle : CertBundle :=
  ⟨"", .block " " "CERTIFICATE" (.certDer c1LeafData) " ", .empty,
   [.block "" "CERTIFICATE" (.certDer c1RootData) ""],
   .block "" "EC PRIVATE KEY" (.ecKeyDer 3) " ", ""⟩

/-- C3 witness: the amended round-trip theorem applied at a concrete
canonical bundle. -/
theorem C3_witness :
    ∃ out, (resultBundle (c3wBundle.ToParsedCertBundle).1).ToCertBundle = .ok out ∧
      pemTrimEq out.certificate c3wBundle.certificate = true ∧
      out.caChain.length = c3wBundle.caChain.length ∧
      ((out.caChain.zip c3wBundle.caChain).all fun pr => pemTrimEq pr.1 pr.2) = true ∧
      pemTrimEq out.privateKey c3wBundle.privateKey = true ∧
      out.serialNumber = ((c3wBundle.ToParsedCertBundle).2).serialNumber :=
  C3_round_trip c3wBundle ((c3wBundle.ToParsedCertBundle).2)
    (resultBundle (c3wBundle.ToParsedCertBundle).1) rfl rfl (by decide)
    (fun hx => absurd hx (by decide)) (Or.inl rfl) rfl

/-- The C10 witness input: a valid EC key followed by a malformed
certificate, so the call fails after the key was classified. -/
def c10wBundle : CertBundle :=
  ⟨"", .garbage, .empty, [], .block "" "EC PRIVATE KEY" (.ecKeyDer 3) "", ""⟩

/-- C10 witness: the cert-side conclusion at a bundle whose certificate
field is malformed: the call errors, yet the input's tag was mutated. -/
theorem C10_witness :
    (c10wBundle.ToParsedCertBundle).1 = .err .decodeCertificate ∧
    (c10wBundle.ToParsedCertBundle).2.privateKeyType = "ec" :=
  ⟨rfl, ((C10_write_back_asymmetry).1 c10wBundle "" "EC PRIVATE KEY" ""
    (.ecKeyDer 3) rfl).1 rfl⟩

end Certutil
